import Mathlib

/-!  A shallow embedding of the MultiQC scatter-plot builder
     (`multiqc/plots/scatter.py`) and proofs about it.  -/

namespace Scatter

/-- Python-like runtime values: `None`, booleans, numbers (modelled as
rationals), strings, lists and string-keyed dicts (insertion-ordered). -/
inductive Val where
  | none  : Val
  | bool  : Bool → Val
  | num   : ℚ → Val
  | str   : String → Val
  | list  : List Val → Val
  | dict  : List (String × Val) → Val
deriving Repr

abbrev Dict := List (String × Val)

/-- Python exceptions that the embedded code can raise. -/
inductive PyErr where
  | typeError  : PyErr
  | keyError   : PyErr
  | indexError : PyErr
  | hookError  : PyErr
deriving Repr, DecidableEq

attribute [local semireducible] Rat.mul

/-- Look a key up in an insertion-ordered association list. -/
def lookup {α : Type} : List (String × α) → String → Option α
  | [], _ => Option.none
  | (k, v) :: rest, key => if k = key then some v else lookup rest key

/-- Python `key in dict`. -/
def hasKey (d : Dict) (k : String) : Bool :=
  (lookup d k).isSome

/-- Python `dict.get(key, default)`. -/
def getD (d : Dict) (k : String) (dflt : Val) : Val :=
  (lookup d k).getD dflt

/-- Python `dict[key] = v`: replace in place if the key exists (keeping its
position), otherwise append at the end. -/
def setKey {α : Type} : List (String × α) → String → α → List (String × α)
  | [], key, v => [(key, v)]
  | (k, w) :: rest, key, v =>
      if k = key then (k, v) :: rest else (k, w) :: setKey rest key v

/-- Remove a key from a dict (used only in specification statements). -/
def removeKey : Dict → String → Dict
  | [], _ => []
  | (k, w) :: rest, key =>
      if k = key then rest else (k, w) :: removeKey rest key

/-- Python `dst.update(src)`: assign each of `src`'s entries in order. -/
def updateDict (dst src : Dict) : Dict :=
  src.foldl (fun d kv => setKey d kv.1 kv.2) dst

/-- Python truthiness. -/
def truthy : Val → Bool
  | .none => false
  | .bool b => b
  | .num q => q != 0
  | .str s => s != ""
  | .list l => !l.isEmpty
  | .dict d => !d.isEmpty

/-- Look a key up on a value, as Python `v[key]` (`KeyError` when the key is
missing, `TypeError` when the value is not a dict). -/
def getKeyV : Val → String → Except PyErr Val
  | .dict d, k =>
      match lookup d k with
      | some v => .ok v
      | Option.none => .error .keyError
  | _, _ => .error .typeError

/-- Look a key up on a value, returning `Option` (used in statements). -/
def vlookup : Val → String → Option Val
  | .dict d, k => lookup d k
  | _, _ => Option.none

/-- Python `seq[i]` for an integer index. -/
def pyIndex : Val → Nat → Except PyErr Val
  | .list l, i =>
      match l[i]? with
      | some v => .ok v
      | Option.none => .error .indexError
  | .dict _, _ => .error .keyError
  | _, _ => .error .typeError

/-- Python `float(v)`: numbers and booleans convert; integer-looking strings
parse; `None` and everything else raise. -/
def pyFloat : Val → Except PyErr ℚ
  | .num q => .ok q
  | .bool b => .ok (if b then 1 else 0)
  | .str s =>
      match s.toInt? with
      | some n => .ok n
      | Option.none => .error .typeError
  | _ => .error .typeError

/-- A value as rendered inside a Python f-string (only the cases the builder
meets matter; names are normally strings). -/
def pyStr : Val → String
  | .none => "None"
  | .bool b => if b then "True" else "False"
  | .num q => if q.den = 1 then toString q.num else toString q
  | .str s => s
  | .list _ => "[...]"
  | .dict _ => "\x7b...\x7d"

/-- Python iteration `for v in x`: lists yield elements, dicts yield keys,
strings yield 1-character strings, the rest raise `TypeError`. -/
def pyIter : Val → Except PyErr (List Val)
  | .list l => .ok l
  | .dict d => .ok (d.map fun kv => Val.str kv.1)
  | .str s => .ok (s.toList.map fun c => Val.str (String.mk [c]))
  | _ => .error .typeError

/-! ### Point Filter & Decorator (scatter.py lines 56-81)  -/

/-- The drop test `k in series_config and float(coord) > float(series_config[k])`
for a max bound (`xmax`/`ymax`).  `true` means the point is dropped. -/
def dropHigh (sc : Dict) (k : String) (coord : Val) : Except PyErr Bool :=
  match lookup sc k with
  | Option.none => .ok false
  | some bound => do
      let c ← pyFloat coord
      let m ← pyFloat bound
      .ok (decide (m < c))

/-- The drop test for a min bound (`xmin`/`ymin`). -/
def dropLow (sc : Dict) (k : String) (coord : Val) : Except PyErr Bool :=
  match lookup sc k with
  | Option.none => .ok false
  | some bound => do
      let c ← pyFloat coord
      let m ← pyFloat bound
      .ok (decide (c < m))

/-- One decoration key (scatter.py lines 74-80): copy `series_config[k]` onto
the point when the point lacks `k`; a dict value containing the sample name is
replaced by its per-sample entry, otherwise the configured value is copied
as-is. -/
def decorateKey (sc : Dict) (s_name : String) (pd : Dict) (k : String) : Dict :=
  if hasKey pd k then pd
  else
    match lookup sc k with
    | Option.none => pd
    | some v =>
        match v with
        | .dict dv =>
            if hasKey dv s_name then setKey pd k (getD dv s_name .none)
            else setKey pd k v
        | _ => setKey pd k v

/-- The decoration keys, in the order the source iterates them. -/
def decorationKeys : List String :=
  ["color", "opacity", "marker_size", "marker_line_width"]

/-- Apply every decoration key in order. -/
def decorate (sc : Dict) (s_name : String) (pd : Dict) : Dict :=
  decorationKeys.foldl (decorateKey sc s_name) pd

/-- The filtering test for one axis (scatter.py lines 59-63 and 64-68): a
`None` coordinate is exempt, otherwise the max bound and then the min bound
are checked.  `true` means the point is dropped. -/
def filterCoord (sc : Dict) (maxK minK : String) (c : Val) : Except PyErr Bool :=
  match c with
  | .none => .ok false
  | _ => do
      if (← dropHigh sc maxK c) then pure true
      else if (← dropLow sc minK c) then pure true
      else pure false

/-- The naming step (scatter.py lines 69-72). -/
def renamePoint (s_name : String) (pd : Dict) : Dict :=
  match lookup pd "name" with
  | some nm => setKey pd "name" (.str (s_name ++ ": " ++ pyStr nm))
  | Option.none => setKey pd "name" (.str s_name)

/-- Process one point (scatter.py lines 58-81): range filtering against the
resolved series config, naming, then decoration.  Returns `none` when the
point is dropped by a bound, the mutated point when it is kept. -/
def processPoint (sc : Dict) (s_name : String) (point : Val) :
    Except PyErr (Option Val) :=
  match point with
  | .dict pd =>
      getKeyV point "x" >>= fun px =>
      filterCoord sc "xmax" "xmin" px >>= fun dropX =>
      if dropX then .ok Option.none
      else
        getKeyV point "y" >>= fun py =>
        filterCoord sc "ymax" "ymin" py >>= fun dropY =>
        if dropY then .ok Option.none
        else .ok (some (.dict (decorate sc s_name (renamePoint s_name pd))))
  | _ => .error .typeError

/-- Process the list of points of one sample value, in order: a dropped
point stays unchanged in the sample's list, a kept point is replaced by its
mutated form in the list and also collected into the dataset. -/
def processPts (sc : Dict) (s_name : String) :
    List Val → Except PyErr (List Val × List Val)
  | [] => .ok ([], [])
  | p :: rest => do
      let r ← processPoint sc s_name p
      let (ps, kept) ← processPts sc s_name rest
      match r with
      | Option.none => .ok (p :: ps, kept)
      | some p' => .ok (p' :: ps, p' :: kept)

/-- One sample entry (scatter.py lines 56-57): a non-list value is wrapped
into a one-element list in place, then every point is processed. -/
def processSample (sc : Dict) (s_name : String) (v : Val) :
    Except PyErr (Val × List Val) :=
  processPts sc s_name (match v with | .list l => l | w => [w]) >>= fun pr =>
  .ok (.list pr.1, pr.2)

/-- Resolve the per-dataset configuration (scatter.py lines 49-54): copy
`pconfig` and, when `data_labels` is present, overlay its entry for this
dataset index if that entry is a dict.  Indexing past the end of
`data_labels` raises `IndexError`. -/
def seriesConfig (pconfig : Dict) (data_index : Nat) : Except PyErr Dict :=
  if hasKey pconfig "data_labels" then do
    let dl ← pyIndex (getD pconfig "data_labels" .none) data_index
    match dl with
    | .dict d => .ok (updateDict pconfig d)
    | _ => .ok pconfig
  else .ok pconfig

/-- Process the entries of one dataset mapping in order, resolving the
series config per sample as the source does. -/
def processEntries (pconfig : Dict) (data_index : Nat) :
    Dict → Except PyErr (Dict × List Val)
  | [] => .ok ([], [])
  | (s_name, v) :: rest => do
      let sc ← seriesConfig pconfig data_index
      let (v', kept) ← processSample sc s_name v
      let (rest', keptRest) ← processEntries pconfig data_index rest
      .ok ((s_name, v') :: rest', kept ++ keptRest)

/-- Process one dataset (scatter.py lines 46-82 body): returns the mutated
sample mapping and the filtered, decorated point list. -/
def processDataset (pconfig : Dict) (data_index : Nat) :
    Val → Except PyErr (Val × List Val)
  | .dict d =>
      processEntries pconfig data_index d >>= fun pr =>
      .ok (.dict pr.1, pr.2)
  | _ => .error .typeError

/-- Process every dataset, numbering them from `i`. -/
def processAll (pconfig : Dict) : Nat → List Val → Except PyErr (List Val × List (List Val))
  | _, [] => .ok ([], [])
  | i, ds :: rest => do
      let (ds', kept) ← processDataset pconfig i ds
      let (rest', plotrest) ← processAll pconfig (i + 1) rest
      .ok (ds' :: rest', kept :: plotrest)

/-- The `custom_plot_config` overlay (scatter.py lines 36-38): when the
config carries a truthy `id` that is a key of the per-report override store,
assign each override onto the config. -/
def applyCustom (cpc : List (String × Dict)) (pd : Dict) : Dict :=
  match lookup pd "id" with
  | some idv =>
      if truthy idv then
        match idv with
        | .str s =>
            match lookup cpc s with
            | some ov => updateDict pd ov
            | Option.none => pd
        | _ => pd
      else pd
  | Option.none => pd

/-- Lines 32-82 of scatter.py: default the config, apply user overrides,
wrap a lone dataset into a list, and filter/decorate every dataset.
Returns the mutated config, the caller-visible mutated data and the
filtered datasets. -/
def plotCore (cpc : List (String × Dict)) (data : Val) (pconfig0 : Val) :
    Except PyErr (Dict × Val × List (List Val)) := do
  let pd ← match pconfig0 with
    | .none => .ok ([] : Dict)
    | .dict d => .ok d
    | _ => .error .typeError
  let pd := applyCustom cpc pd
  let dataList := match data with | .list l => l | v => [v]
  let (data', plotdata) ← processAll pd 0 dataList
  let dataOut := match data with | .list _ => Val.list data' | _ => data'.headD (.dict [])
  .ok (pd, dataOut, plotdata)

/-! ### Layout Policy: the `square` block (scatter.py lines 84-95)  -/

/-- An argument of Python `max` coming from a point coordinate: numbers and
booleans compare with numbers, everything else (including `None`) raises
`TypeError`. -/
def numForMax : Val → Except PyErr ℚ
  | .num q => .ok q
  | .bool b => .ok (if b then 1 else 0)
  | _ => .error .typeError

/-- `max(max_val, s["x"], s["y"])` for one point. -/
def maxStep (m : ℚ) (s : Val) : Except PyErr ℚ := do
  let vx ← getKeyV s "x"
  let vy ← getKeyV s "y"
  let qx ← numForMax vx
  let qy ← numForMax vy
  .ok (max m (max qx qy))

/-- Fold `maxStep` over the points of one dataset. -/
def maxList (m : ℚ) : List Val → Except PyErr ℚ
  | [] => .ok m
  | s :: rest => do
      let m' ← maxStep m s
      maxList m' rest

/-- Fold `maxStep` over every dataset. -/
def maxAll (m : ℚ) : List (List Val) → Except PyErr ℚ
  | [] => .ok m
  | d :: rest => do
      let m' ← maxList m d
      maxAll m' rest

/-- Lines 89-92: `max_val = 0` then `max_val = max(max_val, s["x"], s["y"])`
over all points of all filtered datasets. -/
def maxVal (plotdata : List (List Val)) : Except PyErr ℚ :=
  maxAll 0 plotdata

/-- The `square` block (scatter.py lines 84-95): when `square` is truthy,
set `endOnTick` to `False` and, when neither `ymax` nor `xmax` is present,
set both to `1.02 * max_val`. -/
def squareAdjust (pd : Dict) (plotdata : List (List Val)) : Except PyErr Dict :=
  if truthy (getD pd "square" .none) then
    let pd := setKey pd "endOnTick" (.bool false)
    if hasKey pd "ymax" || hasKey pd "xmax" then .ok pd
    else do
      let m ← maxVal plotdata
      let m := mkRat 51 50 * m
      let pd := setKey pd "xmax" (.num m)
      let pd := setKey pd "ymax" (.num m)
      .ok pd
  else .ok pd

/-! ### Annotation Merger: `extra_series` (scatter.py lines 97-109)  -/

/-- Replace the element at one index of a list. -/
def modifyIdx {α : Type} : Nat → (α → α) → List α → List α
  | _, _, [] => []
  | 0, f, a :: rest => f a :: rest
  | n + 1, f, a :: rest => a :: modifyIdx n f rest

/-- The merge loop `for i, es in enumerate(extra_series): for s in es:
plotdata[i].append(s)` under the surrounding `try`: any raise abandons the
loop, keeping the appends already made. -/
def mergeLoop : List Val → Nat → List (List Val) → List (List Val)
  | [], _, pdata => pdata
  | esi :: rest, i, pdata =>
      match pyIter esi with
      | .error _ => pdata
      | .ok [] => mergeLoop rest (i + 1) pdata
      | .ok pts =>
          if i < pdata.length then
            mergeLoop rest (i + 1) (modifyIdx i (· ++ pts) pdata)
          else pdata

/-- The whole `extra_series` block (scatter.py lines 97-109): a dict is
wrapped into `[[es]]`, a list whose first element is a dict into `[es]`,
anything else is enumerated as-is; every exception is swallowed. -/
def mergeExtra (pd : Dict) (plotdata : List (List Val)) : List (List Val) :=
  match lookup pd "extra_series" with
  | Option.none => plotdata
  | some es0 =>
      if truthy es0 then
        let es : Val :=
          match es0 with
          | .dict d => .list [.list [.dict d]]
          | .list (h :: t) =>
              match h with
              | .dict _ => .list [.list (h :: t)]
              | _ => .list (h :: t)
          | v => v
        match pyIter es with
        | .error _ => plotdata
        | .ok entries => mergeLoop entries 0 plotdata
      else plotdata

/-! ### Payload Assembler (scatter.py lines 111-183)  -/

/-- The ambient process state touched by the builder: the template hook, the
strict flag, the per-report config overrides, and the letters drawn by
`random.sample` for a synthesized id. -/
structure Env where
  custom_plot_config : List (String × Dict)
  strict : Bool
  hook : Option (List (List Val) → Dict → Except Unit String)
  rand_id : String

/-- One entry of `report.plot_data`. -/
structure Payload where
  plot_type : String
  datasets : List (List Val)
  config : Dict
deriving Repr

/-- The report-wide mutable state: assigned html ids, the plot counter and
the plot registry. -/
structure Report where
  htmlids : List String
  num_hc_plots : Nat
  plot_data : List (String × Payload)
deriving Repr

/-- One dataset-switch button of the markup (scatter.py lines 145-166). -/
structure Control where
  active : Bool
  name : Val
  ylab : String
  ymax : String
  xlab : String
  newdata : Nat
  target : String
deriving Repr

/-- The structural markup built by `highcharts_scatter_plot`: the switch
controls and the plot container with its id and optional height. -/
structure Markup where
  controls : List Control
  plot_id : String
  height : Option Val
deriving Repr

/-- What `plot` returns: either the template hook's markup or the built-in
generator's markup. -/
inductive Html where
  | fromHook : String → Html
  | builtin : Markup → Html
deriving Repr

/-- Modelled from the spec: the sanitizing step of `report.save_htmlid`
(Identifier Registry, spec section 4.1), whose source is not among the
files; disallowed characters are replaced to make the candidate safe as a
structural element identifier. -/
def sanitizeId (s : String) : String :=
  String.mk (s.toList.map fun c =>
    if c.isAlphanum || c == '_' || c == '-' then c else '_')

/-- Modelled from the spec: the collision-resolution step of
`report.save_htmlid` — append an incrementing counter suffix until the
candidate is not already taken (the fuel bounds the search). -/
def suffixId (taken : List String) (c : String) : Nat → Nat → String
  | 0, n => c ++ "-" ++ toString n
  | fuel + 1, n =>
      let cand := if n = 0 then c else c ++ "-" ++ toString n
      if taken.contains cand then suffixId taken c fuel (n + 1)
      else cand

/-- Modelled from the spec: `report.save_htmlid` (Identifier Registry, spec
section 4.1) is not among the source files; per the spec it sanitizes the
candidate, disambiguates collisions with a counter suffix, records the
result as taken and returns it. -/
def save_htmlid (rpt : Report) (v : Val) : Except PyErr (String × Report) :=
  match v with
  | .str s =>
      let c := sanitizeId s
      let newId := suffixId rpt.htmlids c (rpt.htmlids.length + 1) 0
      .ok (newId, ⟨rpt.htmlids ++ [newId], rpt.num_hc_plots, rpt.plot_data⟩)
  | _ => .error .typeError

/-- Python `==` between the label value and the integer fallback
(booleans compare as numbers). -/
def pyEq : Val → Val → Bool
  | .none, .none => true
  | .bool a, .bool b => a == b
  | .bool a, .num b => (if a then (1 : ℚ) else 0) == b
  | .num a, .bool b => a == (if b then (1 : ℚ) else 0)
  | .num a, .num b => a == b
  | .str a, .str b => a == b
  | _, _ => false

/-- Build one switch control (scatter.py lines 145-166) from the converted
`data_labels` list `dls`: the label is `dls[k]["name"]` when that succeeds
and the 1-based index otherwise; the axis hints fall back as the source's
`try`/`except` blocks do. -/
def mkControl (dls : List Val) (idStr : String) (k : Nat) : Control :=
  let fallback : Val := .num (k + 1)
  let name : Val :=
    match dls[k]? with
    | some (.dict d) =>
        match lookup d "name" with
        | some v => v
        | Option.none => fallback
    | some _ => fallback
    | Option.none => fallback
  let ylab : String :=
    match dls[k]? with
    | some (.dict d) =>
        match lookup d "ylab" with
        | some v => "data-ylab=\"" ++ pyStr v ++ "\""
        | Option.none =>
            if pyEq name fallback then "" else "data-ylab=\"" ++ pyStr name ++ "\""
    | _ => if pyEq name fallback then "" else "data-ylab=\"" ++ pyStr name ++ "\""
  let ymaxs : String :=
    match dls[k]? with
    | some (.dict d) =>
        match lookup d "ymax" with
        | some v => "data-ymax=\"" ++ pyStr v ++ "\""
        | Option.none => ""
    | _ => ""
  let xlab : String :=
    match dls[k]? with
    | some (.dict d) =>
        match lookup d "xlab" with
        | some v => "data-xlab=\"" ++ pyStr v ++ "\""
        | Option.none =>
            if pyEq name fallback then "" else "data-xlab=\"" ++ pyStr name ++ "\""
    | _ => if pyEq name fallback then "" else "data-xlab=\"" ++ pyStr name ++ "\""
  ⟨k = 0, name, ylab, ymaxs, xlab, k, idStr⟩

/-- Build the switch controls (scatter.py lines 143-167): none unless more
than one dataset exists; otherwise one control per dataset, with each
non-dict `data_labels` entry first wrapped as a `name`-only dict. -/
def mkControls (plotdata : List (List Val)) (pd : Dict) (idStr : String) :
    Except PyErr (List Control) :=
  if plotdata.length > 1 then do
    let dlsRaw ← pyIter (getD pd "data_labels" (.list []))
    let dls := dlsRaw.map fun dl =>
      match dl with
      | .dict _ => dl
      | v => Val.dict [("name", v)]
    .ok ((List.range plotdata.length).map (mkControl dls idStr))
  else .ok []

/-- Lines 133-134 of scatter.py: default a missing or `None` plot id to a
synthesized `mqc_hcplot_` id built from ten random letters. -/
def ensureId (env : Env) (pconfig : Dict) : Dict :=
  match getD pconfig "id" .none with
  | .none => setKey pconfig "id" (.str ("mqc_hcplot_" ++ env.rand_id))
  | _ => pconfig

/-- `highcharts_scatter_plot` (scatter.py lines 124-183): default a missing
or `None` id to a synthesized one, sanitize and register the id, build the
markup, bump the plot counter, reverse every dataset in place and register
the payload. -/
def highcharts_scatter_plot (env : Env) (rpt : Report)
    (plotdata : List (List Val)) (pconfig : Dict) :
    Except PyErr (Markup × Dict × Report) :=
  save_htmlid rpt (getD (ensureId env pconfig) "id" .none) >>= fun sr =>
  mkControls plotdata (setKey (ensureId env pconfig) "id" (.str sr.1)) sr.1 >>=
    fun controls =>
  .ok (⟨controls, sr.1,
        lookup (setKey (ensureId env pconfig) "id" (.str sr.1)) "height"⟩,
       setKey (ensureId env pconfig) "id" (.str sr.1),
       ⟨sr.2.htmlids, sr.2.num_hc_plots + 1,
        setKey sr.2.plot_data sr.1
          ⟨"scatter", plotdata.map List.reverse,
           setKey (ensureId env pconfig) "id" (.str sr.1)⟩⟩)

/-- What a successful `plot` call leaves behind: the returned markup, the
caller-visible mutated data and config, and the new report state. -/
structure PlotOk where
  html : Html
  data : Val
  pconfig : Dict
  report : Report

/-- Everything `plot` does before consulting the template hook (scatter.py
lines 32-109): filter and decorate, apply the square layout policy, merge
extra series.  Returns (mutated config, caller-visible mutated data, final
datasets). -/
def plotPrep (cpc : List (String × Dict)) (data : Val) (pconfig0 : Val) :
    Except PyErr (Dict × Val × List (List Val)) :=
  plotCore cpc data pconfig0 >>= fun r =>
  squareAdjust r.1 r.2.2 >>= fun pd =>
  .ok (pd, r.2.1, mergeExtra pd r.2.2)

/-- `plot` (scatter.py lines 26-121): filter and decorate, apply the square
layout policy, merge extra series, then hand the payload to the template
hook if there is one — falling back to the built-in generator unless a hook
failure happens in strict mode. -/
def plot (env : Env) (rpt : Report) (data : Val) (pconfig0 : Val) :
    Except PyErr PlotOk :=
  plotPrep env.custom_plot_config data pconfig0 >>= fun r =>
  match env.hook with
  | some f =>
      match f r.2.2 r.1 with
      | .ok s => .ok ⟨.fromHook s, r.2.1, r.1, rpt⟩
      | .error _ =>
          if env.strict then .error .hookError
          else
            highcharts_scatter_plot env rpt r.2.2 r.1 >>= fun hcr =>
            .ok ⟨.builtin hcr.1, r.2.1, hcr.2.1, hcr.2.2⟩
  | Option.none =>
      highcharts_scatter_plot env rpt r.2.2 r.1 >>= fun hcr =>
      .ok ⟨.builtin hcr.1, r.2.1, hcr.2.1, hcr.2.2⟩

/-! ### Monad rewriting lemmas  -/

theorem exbind_ok {ε α β : Type} (a : α) (f : α → Except ε β) :
    (Except.ok a : Except ε α) >>= f = f a := rfl

theorem exbind_err {ε α β : Type} (e : ε) (f : α → Except ε β) :
    (Except.error e : Except ε α) >>= f = .error e := rfl

theorem expure_eq_ok {ε α : Type} (a : α) : (pure a : Except ε α) = .ok a := rfl

/-! ### Dictionary lemmas  -/

theorem lookup_setKey_self {α : Type} (d : List (String × α)) (k : String) (v : α) :
    lookup (setKey d k v) k = some v := by
  induction d with
  | nil => simp [setKey, lookup]
  | cons kv rest ih =>
      obtain ⟨k', v'⟩ := kv
      by_cases h : k' = k
      · subst h
        simp [setKey, lookup]
      · simp [setKey, lookup, h, ih]

theorem lookup_setKey_ne {α : Type} (d : List (String × α)) (k key : String) (v : α)
    (h : key ≠ k) : lookup (setKey d k v) key = lookup d key := by
  induction d with
  | nil => simp [setKey, lookup, Ne.symm h]
  | cons kv rest ih =>
      obtain ⟨k', v'⟩ := kv
      by_cases h1 : k' = k
      · subst h1
        simp [setKey, lookup, Ne.symm h]
      · by_cases h2 : k' = key
        · subst h2
          simp [setKey, lookup, h1]
        · simp [setKey, lookup, h1, h2, ih]

theorem lookup_removeKey_ne (d : Dict) (k key : String) (h : key ≠ k) :
    lookup (removeKey d k) key = lookup d key := by
  induction d with
  | nil => simp [removeKey]
  | cons kv rest ih =>
      obtain ⟨k', v'⟩ := kv
      by_cases h1 : k' = k
      · subst h1
        simp [removeKey, lookup, Ne.symm h, ih]
      · by_cases h2 : k' = key
        · subst h2
          simp [removeKey, lookup, h1]
        · simp [removeKey, lookup, h1, h2, ih]

theorem hasKey_setKey_ne (d : Dict) (k key : String) (v : Val) (h : key ≠ k) :
    hasKey (setKey d k v) key = hasKey d key := by
  simp [hasKey, lookup_setKey_ne d k key v h]

theorem hasKey_setKey_self (d : Dict) (k : String) (v : Val) :
    hasKey (setKey d k v) k = true := by
  simp [hasKey, lookup_setKey_self]

/-! ### Properties of the Point Filter & Decorator  -/

/-- Decorating never touches a key outside the four decoration keys. -/
theorem lookup_decorateKey_ne (sc : Dict) (s : String) (pd : Dict) (k key : String)
    (h : key ≠ k) : lookup (decorateKey sc s pd k) key = lookup pd key := by
  unfold decorateKey
  by_cases h1 : hasKey pd k
  · simp [h1]
  · simp only [h1]
    cases hv : lookup sc k with
    | none => simp
    | some v =>
        simp only
        cases v with
        | dict dv =>
            by_cases h2 : hasKey dv s <;>
              simp [h2, lookup_setKey_ne _ _ _ _ h]
        | none => simp [lookup_setKey_ne _ _ _ _ h]
        | bool b => simp [lookup_setKey_ne _ _ _ _ h]
        | num q => simp [lookup_setKey_ne _ _ _ _ h]
        | str t => simp [lookup_setKey_ne _ _ _ _ h]
        | list l => simp [lookup_setKey_ne _ _ _ _ h]

theorem lookup_decorate_ne (sc : Dict) (s : String) (pd : Dict) (key : String)
    (h1 : key ≠ "color") (h2 : key ≠ "opacity") (h3 : key ≠ "marker_size")
    (h4 : key ≠ "marker_line_width") :
    lookup (decorate sc s pd) key = lookup pd key := by
  simp only [decorate, decorationKeys, List.foldl]
  rw [lookup_decorateKey_ne _ _ _ _ _ h4, lookup_decorateKey_ne _ _ _ _ _ h3,
    lookup_decorateKey_ne _ _ _ _ _ h2, lookup_decorateKey_ne _ _ _ _ _ h1]

/-- Inverting a successful, kept `processPoint`: both coordinates were read,
neither axis dropped the point, and the result is the renamed, decorated
input. -/
theorem processPoint_ok_some (sc pd : Dict) (s : String) (p' : Val)
    (hkeep : processPoint sc s (.dict pd) = .ok (some p')) :
    ∃ px py, lookup pd "x" = some px ∧ lookup pd "y" = some py ∧
      filterCoord sc "xmax" "xmin" px = .ok false ∧
      filterCoord sc "ymax" "ymin" py = .ok false ∧
      p' = .dict (decorate sc s (renamePoint s pd)) := by
  unfold processPoint at hkeep
  simp only [getKeyV] at hkeep
  cases hx : lookup pd "x" with
  | none => rw [hx] at hkeep; simp [exbind_err] at hkeep
  | some px =>
      rw [hx] at hkeep
      simp only [exbind_ok] at hkeep
      cases hfx : filterCoord sc "xmax" "xmin" px with
      | error e => rw [hfx] at hkeep; simp [exbind_err] at hkeep
      | ok bx =>
          rw [hfx] at hkeep
          simp only [exbind_ok] at hkeep
          cases bx with
          | true => simp at hkeep
          | false =>
              simp only [Bool.false_eq_true, if_false] at hkeep
              cases hy : lookup pd "y" with
              | none => rw [hy] at hkeep; simp [exbind_err] at hkeep
              | some py =>
                  rw [hy] at hkeep
                  simp only [exbind_ok] at hkeep
                  cases hfy : filterCoord sc "ymax" "ymin" py with
                  | error e => rw [hfy] at hkeep; simp [exbind_err] at hkeep
                  | ok by2 =>
                      rw [hfy] at hkeep
                      simp only [exbind_ok] at hkeep
                      cases by2 with
                      | true => simp at hkeep
                      | false =>
                          simp only [Bool.false_eq_true, if_false,
                            Except.ok.injEq, Option.some.injEq] at hkeep
                          exact ⟨px, py, rfl, rfl, hfx, hfy, hkeep.symm⟩

/-- A coordinate that survives `filterCoord` respects a numeric max bound. -/
theorem filterCoord_le_max (sc : Dict) (maxK minK : String) (c : Val)
    (hf : filterCoord sc maxK minK c = .ok false)
    (qc : ℚ) (hc : pyFloat c = .ok qc)
    (vm : Val) (hm : lookup sc maxK = some vm)
    (qm : ℚ) (hqm : pyFloat vm = .ok qm) : qc ≤ qm := by
  unfold filterCoord at hf
  cases c with
  | none => simp [pyFloat] at hc
  | bool b =>
      simp only [dropHigh, hm, hc, hqm, exbind_ok] at hf
      by_cases hlt : qm < qc
      · simp [hlt, expure_eq_ok] at hf
      · exact le_of_not_lt hlt
  | num q =>
      simp only [dropHigh, hm, hc, hqm, exbind_ok] at hf
      by_cases hlt : qm < qc
      · simp [hlt, expure_eq_ok] at hf
      · exact le_of_not_lt hlt
  | str s =>
      simp only [dropHigh, hm, hc, hqm, exbind_ok] at hf
      by_cases hlt : qm < qc
      · simp [hlt, expure_eq_ok] at hf
      · exact le_of_not_lt hlt
  | list l => simp [pyFloat] at hc
  | dict d => simp [pyFloat] at hc

/-- A coordinate that survives `filterCoord` respects a numeric min bound. -/
theorem filterCoord_ge_min (sc : Dict) (maxK minK : String) (c : Val)
    (hf : filterCoord sc maxK minK c = .ok false)
    (qc : ℚ) (hc : pyFloat c = .ok qc)
    (vm : Val) (hm : lookup sc minK = some vm)
    (qm : ℚ) (hqm : pyFloat vm = .ok qm) : qm ≤ qc := by
  unfold filterCoord at hf
  cases c with
  | none => simp [pyFloat] at hc
  | bool b =>
      cases hdh : dropHigh sc maxK (.bool b) with
      | error e => simp [hdh, exbind_err] at hf
      | ok bh =>
          cases bh with
          | true => simp [hdh, exbind_ok, expure_eq_ok] at hf
          | false =>
              simp only [hdh, exbind_ok, Bool.false_eq_true, if_false] at hf
              simp only [dropLow, hm, hc, hqm, exbind_ok] at hf
              by_cases hlt : qc < qm
              · simp [hlt, expure_eq_ok] at hf
              · exact le_of_not_lt hlt
  | num q =>
      cases hdh : dropHigh sc maxK (.num q) with
      | error e => simp [hdh, exbind_err] at hf
      | ok bh =>
          cases bh with
          | true => simp [hdh, exbind_ok, expure_eq_ok] at hf
          | false =>
              simp only [hdh, exbind_ok, Bool.false_eq_true, if_false] at hf
              simp only [dropLow, hm, hc, hqm, exbind_ok] at hf
              by_cases hlt : qc < qm
              · simp [hlt, expure_eq_ok] at hf
              · exact le_of_not_lt hlt
  | str s =>
      cases hdh : dropHigh sc maxK (.str s) with
      | error e => simp [hdh, exbind_err] at hf
      | ok bh =>
          cases bh with
          | true => simp [hdh, exbind_ok, expure_eq_ok] at hf
          | false =>
              simp only [hdh, exbind_ok, Bool.false_eq_true, if_false] at hf
              simp only [dropLow, hm, hc, hqm, exbind_ok] at hf
              by_cases hlt : qc < qm
              · simp [hlt, expure_eq_ok] at hf
              · exact le_of_not_lt hlt
  | list l => simp [pyFloat] at hc
  | dict d => simp [pyFloat] at hc

theorem lookup_renamePoint_ne (s : String) (pd : Dict) (key : String)
    (h : key ≠ "name") : lookup (renamePoint s pd) key = lookup pd key := by
  unfold renamePoint
  cases lookup pd "name" <;> simp [lookup_setKey_ne _ _ _ _ h]

theorem dropHigh_congr (sc sc' : Dict) (k : String) (c : Val)
    (h : lookup sc' k = lookup sc k) : dropHigh sc' k c = dropHigh sc k c := by
  unfold dropHigh
  rw [h]

theorem dropLow_congr (sc sc' : Dict) (k : String) (c : Val)
    (h : lookup sc' k = lookup sc k) : dropLow sc' k c = dropLow sc k c := by
  unfold dropLow
  rw [h]

theorem filterCoord_congr (sc sc' : Dict) (maxK minK : String) (c : Val)
    (h1 : lookup sc' maxK = lookup sc maxK)
    (h2 : lookup sc' minK = lookup sc minK) :
    filterCoord sc' maxK minK c = filterCoord sc maxK minK c := by
  unfold filterCoord
  cases c <;>
    simp [dropHigh_congr sc sc' _ _ h1, dropLow_congr sc sc' _ _ h2]

theorem decorateKey_congr (sc sc' : Dict) (s : String) (pd : Dict) (k : String)
    (h : lookup sc' k = lookup sc k) :
    decorateKey sc' s pd k = decorateKey sc s pd k := by
  unfold decorateKey
  rw [h]

theorem filterCoord_none (sc : Dict) (maxK minK : String) :
    filterCoord sc maxK minK .none = .ok false := rfl

theorem decorate_congr (sc sc' : Dict) (s : String) (pd : Dict)
    (h1 : lookup sc' "color" = lookup sc "color")
    (h2 : lookup sc' "opacity" = lookup sc "opacity")
    (h3 : lookup sc' "marker_size" = lookup sc "marker_size")
    (h4 : lookup sc' "marker_line_width" = lookup sc "marker_line_width") :
    decorate sc' s pd = decorate sc s pd := by
  simp only [decorate, decorationKeys, List.foldl]
  rw [decorateKey_congr sc sc' s pd _ h1]
  rw [decorateKey_congr sc sc' s _ _ h2]
  rw [decorateKey_congr sc sc' s _ _ h3]
  rw [decorateKey_congr sc sc' s _ _ h4]

/-- A point whose `x` is `None` is processed identically whether or not the
series config carries `xmax`/`xmin`. -/
theorem processPoint_x_none_exempt (sc pd : Dict) (s : String)
    (hx : lookup pd "x" = some .none) :
    processPoint (removeKey (removeKey sc "xmax") "xmin") s (.dict pd) =
      processPoint sc s (.dict pd) := by
  have hymax : lookup (removeKey (removeKey sc "xmax") "xmin") "ymax" = lookup sc "ymax" := by
    rw [lookup_removeKey_ne _ _ _ (by decide), lookup_removeKey_ne _ _ _ (by decide)]
  have hymin : lookup (removeKey (removeKey sc "xmax") "xmin") "ymin" = lookup sc "ymin" := by
    rw [lookup_removeKey_ne _ _ _ (by decide), lookup_removeKey_ne _ _ _ (by decide)]
  have hdec : decorate (removeKey (removeKey sc "xmax") "xmin") s (renamePoint s pd) =
      decorate sc s (renamePoint s pd) := by
    apply decorate_congr <;>
      rw [lookup_removeKey_ne _ _ _ (by decide), lookup_removeKey_ne _ _ _ (by decide)]
  unfold processPoint
  simp only [getKeyV, hx]
  simp only [exbind_ok, filterCoord_none, Bool.false_eq_true, if_false]
  cases hy : lookup pd "y" with
  | none => rfl
  | some py =>
      simp only [exbind_ok,
        filterCoord_congr sc (removeKey (removeKey sc "xmax") "xmin") "ymax" "ymin" py hymax hymin,
        hdec]

/-- A point whose `y` is `None` is processed identically whether or not the
series config carries `ymax`/`ymin`. -/
theorem processPoint_y_none_exempt (sc pd : Dict) (s : String)
    (hy : lookup pd "y" = some .none) :
    processPoint (removeKey (removeKey sc "ymax") "ymin") s (.dict pd) =
      processPoint sc s (.dict pd) := by
  have hxmax : lookup (removeKey (removeKey sc "ymax") "ymin") "xmax" = lookup sc "xmax" := by
    rw [lookup_removeKey_ne _ _ _ (by decide), lookup_removeKey_ne _ _ _ (by decide)]
  have hxmin : lookup (removeKey (removeKey sc "ymax") "ymin") "xmin" = lookup sc "xmin" := by
    rw [lookup_removeKey_ne _ _ _ (by decide), lookup_removeKey_ne _ _ _ (by decide)]
  have hdec : decorate (removeKey (removeKey sc "ymax") "ymin") s (renamePoint s pd) =
      decorate sc s (renamePoint s pd) := by
    apply decorate_congr <;>
      rw [lookup_removeKey_ne _ _ _ (by decide), lookup_removeKey_ne _ _ _ (by decide)]
  unfold processPoint
  simp only [getKeyV, hy]
  cases hpx : lookup pd "x" with
  | none => simp only [exbind_err]
  | some px =>
      simp only [exbind_ok,
        filterCoord_congr sc (removeKey (removeKey sc "ymax") "ymin") "xmax" "xmin" px hxmax hxmin]
      cases hf : filterCoord sc "xmax" "xmin" px with
      | error e => simp only [exbind_err]
      | ok b =>
          cases b with
          | true => simp only [exbind_ok, if_pos]
          | false =>
              simp only [exbind_ok, Bool.false_eq_true, if_false, filterCoord_none, hdec]

/-- Kept points preserve their coordinate entries. -/
theorem processPoint_coords (sc pd : Dict) (s : String) (p' : Val)
    (hkeep : processPoint sc s (.dict pd) = .ok (some p')) :
    vlookup p' "x" = lookup pd "x" ∧ vlookup p' "y" = lookup pd "y" := by
  obtain ⟨px, py, hx, hy, _, _, hp⟩ := processPoint_ok_some sc pd s p' hkeep
  subst hp
  constructor
  · rw [show vlookup (.dict (decorate sc s (renamePoint s pd))) "x" =
        lookup (decorate sc s (renamePoint s pd)) "x" from rfl]
    rw [lookup_decorate_ne _ _ _ _ (by decide) (by decide) (by decide) (by decide)]
    rw [lookup_renamePoint_ne _ _ _ (by decide)]
  · rw [show vlookup (.dict (decorate sc s (renamePoint s pd))) "y" =
        lookup (decorate sc s (renamePoint s pd)) "y" from rfl]
    rw [lookup_decorate_ne _ _ _ _ (by decide) (by decide) (by decide) (by decide)]
    rw [lookup_renamePoint_ne _ _ _ (by decide)]

/-- C1: for a dataset whose resolved series configuration sets a numeric
`xmax`/`xmin` (resp. `ymax`/`ymin`), every point the Point Filter and
Decorator retains with a non-null (numerically convertible) `x` (resp. `y`)
satisfies `xmin ≤ x ≤ xmax` (resp. `ymin ≤ y ≤ ymax`); and a point whose
`x` (resp. `y`) is null is exempt from that axis's bound checks — it is
processed exactly as if those bounds were absent from the configuration,
so it is never dropped by them. -/
theorem C1_retained_point_within_bounds (sc pd : Dict) (s : String) :
    (∀ p', processPoint sc s (.dict pd) = .ok (some p') →
      (∀ vx qx vm qm, vlookup p' "x" = some vx → pyFloat vx = .ok qx →
          lookup sc "xmax" = some vm → pyFloat vm = .ok qm → qx ≤ qm) ∧
      (∀ vx qx vm qm, vlookup p' "x" = some vx → pyFloat vx = .ok qx →
          lookup sc "xmin" = some vm → pyFloat vm = .ok qm → qm ≤ qx) ∧
      (∀ vy qy vm qm, vlookup p' "y" = some vy → pyFloat vy = .ok qy →
          lookup sc "ymax" = some vm → pyFloat vm = .ok qm → qy ≤ qm) ∧
      (∀ vy qy vm qm, vlookup p' "y" = some vy → pyFloat vy = .ok qy →
          lookup sc "ymin" = some vm → pyFloat vm = .ok qm → qm ≤ qy)) ∧
    (lookup pd "x" = some .none →
      processPoint (removeKey (removeKey sc "xmax") "xmin") s (.dict pd) =
        processPoint sc s (.dict pd)) ∧
    (lookup pd "y" = some .none →
      processPoint (removeKey (removeKey sc "ymax") "ymin") s (.dict pd) =
        processPoint sc s (.dict pd)) := by
  refine ⟨?_, processPoint_x_none_exempt sc pd s, processPoint_y_none_exempt sc pd s⟩
  intro p' hkeep
  obtain ⟨px, py, hx, hy, hfx, hfy, _⟩ := processPoint_ok_some sc pd s p' hkeep
  obtain ⟨hcx, hcy⟩ := processPoint_coords sc pd s p' hkeep
  refine ⟨?_, ?_, ?_, ?_⟩
  · intro vx qx vm qm hvx hqx hm hqm
    rw [hcx, hx] at hvx
    cases hvx
    exact filterCoord_le_max sc "xmax" "xmin" px hfx qx hqx vm hm qm hqm
  · intro vx qx vm qm hvx hqx hm hqm
    rw [hcx, hx] at hvx
    cases hvx
    exact filterCoord_ge_min sc "xmax" "xmin" px hfx qx hqx vm hm qm hqm
  · intro vy qy vm qm hvy hqy hm hqm
    rw [hcy, hy] at hvy
    cases hvy
    exact filterCoord_le_max sc "ymax" "ymin" py hfy qy hqy vm hm qm hqm
  · intro vy qy vm qm hvy hqy hm hqm
    rw [hcy, hy] at hvy
    cases hvy
    exact filterCoord_ge_min sc "ymax" "ymin" py hfy qy hqy vm hm qm hqm

/-- C1 witness: a concrete retained point inside concrete bounds. -/
theorem C1_witness : (3 : ℚ) ≤ 10 ∧ (1 : ℚ) ≤ 3 ∧ (4 : ℚ) ≤ 8 ∧ (0 : ℚ) ≤ 4 := by
  have h := (C1_retained_point_within_bounds
      [("xmax", .num 10), ("xmin", .num 1), ("ymax", .num 8), ("ymin", .num 0)]
      [("x", .num 3), ("y", .num 4)] "s1").1
      (.dict [("x", .num 3), ("y", .num 4), ("name", .str "s1")]) (by rfl)
  exact ⟨h.1 _ 3 _ 10 rfl rfl rfl rfl, h.2.1 _ 3 _ 1 rfl rfl rfl rfl,
    h.2.2.1 _ 4 _ 8 rfl rfl rfl rfl, h.2.2.2 _ 4 _ 0 rfl rfl rfl rfl⟩

theorem hasKey_renamePoint_ne (s : String) (pd : Dict) (key : String)
    (h : key ≠ "name") : hasKey (renamePoint s pd) key = hasKey pd key := by
  simp [hasKey, lookup_renamePoint_ne s pd key h]

theorem hasKey_decorateKey_ne (sc : Dict) (s : String) (pd : Dict) (k key : String)
    (h : key ≠ k) : hasKey (decorateKey sc s pd k) key = hasKey pd key := by
  simp [hasKey, lookup_decorateKey_ne sc s pd k key h]

/-- What a configured decoration value resolves to for a given sample: the
per-sample entry when the value is a dict containing the sample name, the
value itself otherwise. -/
def resolveDecoration (s : String) : Val → Val
  | .dict dv => if hasKey dv s then getD dv s .none else .dict dv
  | v => v

/-- Decorating a key the point lacks and the config supplies stores the
resolved configured value. -/
theorem lookup_decorateKey_self (sc : Dict) (s : String) (pd : Dict) (k : String)
    (habs : hasKey pd k = false) (v : Val) (hv : lookup sc k = some v) :
    lookup (decorateKey sc s pd k) k = some (resolveDecoration s v) := by
  unfold decorateKey resolveDecoration
  rw [habs, hv]
  simp only [Bool.false_eq_true, if_false]
  cases v with
  | dict dv =>
      by_cases hs : hasKey dv s <;> simp [hs, lookup_setKey_self]
  | none => simp [lookup_setKey_self]
  | bool b => simp [lookup_setKey_self]
  | num q => simp [lookup_setKey_self]
  | str t => simp [lookup_setKey_self]
  | list l => simp [lookup_setKey_self]

/-- C2 (amended): every point that passes through the Point Filter and
Decorator leaves it with a name — `"<sampleKey>: <originalName>"` when the
input point carried a name, and the bare sample key otherwise.  (Points
appended from `extra_series` never pass through this stage and may stay
nameless, which is what the counterexample shows.) -/
theorem C2_amended_kept_points_named (sc pd : Dict) (s : String) (p' : Val)
    (hkeep : processPoint sc s (.dict pd) = .ok (some p')) :
    (∀ nm, lookup pd "name" = some nm →
        vlookup p' "name" = some (.str (s ++ ": " ++ pyStr nm))) ∧
    (lookup pd "name" = Option.none → vlookup p' "name" = some (.str s)) := by
  obtain ⟨px, py, _, _, _, _, hp⟩ := processPoint_ok_some sc pd s p' hkeep
  subst hp
  simp only [vlookup]
  rw [lookup_decorate_ne _ _ _ _ (by decide) (by decide) (by decide) (by decide)]
  constructor
  · intro nm hnm
    unfold renamePoint
    rw [hnm]
    exact lookup_setKey_self _ _ _
  · intro hnone
    unfold renamePoint
    rw [hnone]
    exact lookup_setKey_self _ _ _

/-- C2 counterexample: a nameless `extra_series` point reaches the
registered output dataset without ever being given a name, so not every
point of the final output carries one. -/
theorem C2_counterexample :
    (plot ⟨[], false, Option.none, "abcdefghij"⟩ ⟨[], 0, []⟩
        (.dict [("s1", .dict [("x", .num 1), ("y", .num 2)])])
        (.dict [("extra_series", .dict [("x", .num 0), ("y", .num 0)])])).map
        (fun r => (lookup r.report.plot_data "mqc_hcplot_abcdefghij").map
          (fun pay => pay.datasets)) =
      .ok (some [[.dict [("x", .num 0), ("y", .num 0)],
        .dict [("x", .num 1), ("y", .num 2), ("name", .str "s1")]]]) ∧
    vlookup (.dict [("x", .num 0), ("y", .num 0)]) "name" = Option.none := by
  constructor
  · rfl
  · rfl

/-- C2 witness: Scenario A — a retained point is renamed to
`"sampleA: p1"`. -/
theorem C2_witness :
    vlookup (.dict [("x", .num 1), ("y", .num 2), ("name", .str "sampleA: p1")])
        "name" = some (.str "sampleA: p1") :=
  (C2_amended_kept_points_named [] [("x", .num 1), ("y", .num 2), ("name", .str "p1")]
      "sampleA" (.dict [("x", .num 1), ("y", .num 2), ("name", .str "sampleA: p1")])
      (by rfl)).1 (.str "p1") rfl

/-- C5 (amended): for a decoration key absent on the point and present in
the resolved configuration, the point receives `value[sampleKey]` when the
configured value is a mapping containing the sample key; otherwise — for a
non-mapping value, and equally for a mapping that lacks the sample key —
the configured value itself is copied as-is (the attribute is not left
unset in the latter case). -/
theorem C5_amended_decoration (sc pd : Dict) (s : String) (p' : Val) (k : String)
    (hkeep : processPoint sc s (.dict pd) = .ok (some p'))
    (hk : k ∈ decorationKeys) (habs : hasKey pd k = false) (v : Val)
    (hv : lookup sc k = some v) :
    vlookup p' k = some (resolveDecoration s v) := by
  obtain ⟨px, py, _, _, _, _, hp⟩ := processPoint_ok_some sc pd s p' hkeep
  subst hp
  simp only [decorationKeys, List.mem_cons, List.not_mem_nil, or_false] at hk
  simp only [vlookup, decorate, decorationKeys, List.foldl]
  rcases hk with hk | hk | hk | hk
  · subst hk
    rw [lookup_decorateKey_ne _ _ _ _ _ (by decide),
      lookup_decorateKey_ne _ _ _ _ _ (by decide),
      lookup_decorateKey_ne _ _ _ _ _ (by decide)]
    refine lookup_decorateKey_self sc s _ _ ?_ v hv
    rw [hasKey_renamePoint_ne s pd _ (by decide)]
    exact habs
  · subst hk
    rw [lookup_decorateKey_ne _ _ _ _ _ (by decide),
      lookup_decorateKey_ne _ _ _ _ _ (by decide)]
    refine lookup_decorateKey_self sc s _ _ ?_ v hv
    rw [hasKey_decorateKey_ne _ _ _ _ _ (by decide),
      hasKey_renamePoint_ne s pd _ (by decide)]
    exact habs
  · subst hk
    rw [lookup_decorateKey_ne _ _ _ _ _ (by decide)]
    refine lookup_decorateKey_self sc s _ _ ?_ v hv
    rw [hasKey_decorateKey_ne _ _ _ _ _ (by decide),
      hasKey_decorateKey_ne _ _ _ _ _ (by decide),
      hasKey_renamePoint_ne s pd _ (by decide)]
    exact habs
  · subst hk
    refine lookup_decorateKey_self sc s _ _ ?_ v hv
    rw [hasKey_decorateKey_ne _ _ _ _ _ (by decide),
      hasKey_decorateKey_ne _ _ _ _ _ (by decide),
      hasKey_decorateKey_ne _ _ _ _ _ (by decide),
      hasKey_renamePoint_ne s pd _ (by decide)]
    exact habs

/-- C5 counterexample: the sample key `s1` is absent from the configured
`color` mapping, yet the kept point's `color` is set — to the whole mapping
— rather than left unset. -/
theorem C5_counterexample :
    (processPoint [("color", .dict [("other", .str "red")])] "s1"
        (.dict [("x", .num 1), ("y", .num 2)])).map
        (fun o => o.map (fun p => vlookup p "color")) =
      .ok (some (some (.dict [("other", .str "red")]))) := by rfl

/-- C5 witness: a per-sample `color` mapping containing the sample key is
resolved to that sample's entry. -/
theorem C5_witness :
    vlookup (.dict [("x", .num 1), ("y", .num 2), ("name", .str "s1"),
        ("color", .str "blue")]) "color" = some (.str "blue") :=
  C5_amended_decoration [("color", .dict [("s1", .str "blue")])]
    [("x", .num 1), ("y", .num 2)] "s1"
    (.dict [("x", .num 1), ("y", .num 2), ("name", .str "s1"),
      ("color", .str "blue")]) "color" (by rfl) (by decide) (by rfl)
    (.dict [("s1", .str "blue")]) rfl

/-- C4 (amended): when `data_labels` is shorter than the number of
datasets, the builder does not tolerate the missing entries: resolving the
series configuration for a dataset index with no `data_labels` entry raises
`IndexError`, which aborts the build as soon as such a dataset contains at
least one sample; only an empty dataset at such an index is harmless,
because its missing entry is never accessed. -/
theorem C4_amended_short_data_labels (pconfig : Dict) (i : Nat) (ls : List Val)
    (hdl : lookup pconfig "data_labels" = some (.list ls)) (hlen : ls.length ≤ i) :
    seriesConfig pconfig i = .error .indexError ∧
    (∀ s v rest, processDataset pconfig i (.dict ((s, v) :: rest)) =
      .error .indexError) ∧
    processDataset pconfig i (.dict []) = .ok (.dict [], []) := by
  have hsc : seriesConfig pconfig i = .error .indexError := by
    unfold seriesConfig
    simp [hasKey, hdl, getD, pyIndex, List.getElem?_eq_none hlen, exbind_err]
  refine ⟨hsc, ?_, by rfl⟩
  intro s v rest
  simp only [processDataset, processEntries, hsc, exbind_err]

/-- C4 counterexample: two one-sample datasets with a single-entry
`data_labels` list abort the whole build with an `IndexError`, instead of
completing with the second dataset processed without overrides. -/
theorem C4_counterexample :
    plot ⟨[], false, Option.none, "abcdefghij"⟩ ⟨[], 0, []⟩
        (.list [.dict [("s1", .dict [("x", .num 1), ("y", .num 1)])],
                .dict [("s2", .dict [("x", .num 2), ("y", .num 2)])]])
        (.dict [("data_labels", .list [.dict [("name", .str "Run1")]])]) =
      .error .indexError := by rfl

/-- C4 witness: the amended behavior at a concrete short `data_labels`. -/
theorem C4_witness :
    seriesConfig [("data_labels", .list [])] 0 = .error .indexError ∧
    processDataset [("data_labels", .list [])] 0
        (.dict [("s1", .dict [("x", .num 1), ("y", .num 1)])]) =
      .error .indexError ∧
    processDataset [("data_labels", .list [])] 0 (.dict []) = .ok (.dict [], []) := by
  have h := C4_amended_short_data_labels [("data_labels", .list [])] 0 [] rfl
    (by decide)
  exact ⟨h.1, h.2.1 "s1" (.dict [("x", .num 1), ("y", .num 1)]) [], h.2.2⟩

/-! ### Square-layout lemmas  -/

/-- The numeric coordinate values one point contributes to the square-layout
maximum (specification-side helper: `x` then `y`, skipping whatever does not
convert). -/
def numCoords (s : Val) : List ℚ :=
  (match getKeyV s "x" with
   | .ok v =>
       match numForMax v with
       | .ok q => [q]
       | .error _ => []
   | .error _ => []) ++
  (match getKeyV s "y" with
   | .ok v =>
       match numForMax v with
       | .ok q => [q]
       | .error _ => []
   | .error _ => [])

/-- The square-layout maximum as the spec words it: the maximum of 0 and
every coordinate value of every point of every filtered dataset. -/
def specCoordMax (plotdata : List (List Val)) : ℚ :=
  ((plotdata.map fun d => (d.map numCoords).flatten).flatten).foldl max 0

theorem le_foldl_max (l : List ℚ) : ∀ m : ℚ, m ≤ l.foldl max m := by
  induction l with
  | nil => intro m; exact le_refl m
  | cons q rest ih =>
      intro m
      exact le_trans (le_max_left m q) (ih (max m q))

theorem mem_le_foldl_max (l : List ℚ) : ∀ m q, q ∈ l → q ≤ l.foldl max m := by
  induction l with
  | nil => intro m q hq; cases hq
  | cons a rest ih =>
      intro m q hq
      rcases List.mem_cons.mp hq with h | h
      · subst h
        exact le_trans (le_max_right m q) (le_foldl_max rest (max m q))
      · exact ih (max m a) q h

/-- Inverting `(numCoords s).length = 2`: both coordinates are present and
numerically convertible. -/
theorem numCoords_two (s : Val) (h : (numCoords s).length = 2) :
    ∃ vx qx vy qy, getKeyV s "x" = .ok vx ∧ numForMax vx = .ok qx ∧
      getKeyV s "y" = .ok vy ∧ numForMax vy = .ok qy ∧ numCoords s = [qx, qy] := by
  unfold numCoords at h
  split at h
  case _ vx hgx =>
    split at h
    case _ qx hnx =>
      split at h
      case _ vy hgy =>
        split at h
        case _ qy hny =>
          refine ⟨vx, qx, vy, qy, hgx, hnx, hgy, hny, ?_⟩
          unfold numCoords
          simp [hgx, hnx, hgy, hny]
        case _ e hny => simp at h
      case _ e hgy => simp at h
    case _ e hnx =>
      split at h
      case _ vy hgy =>
        split at h
        case _ qy hny => simp at h
        case _ e2 hny => simp at h
      case _ e2 hgy => simp at h
  case _ e hgx =>
    split at h
    case _ vy hgy =>
      split at h
      case _ qy hny => simp at h
      case _ e2 hny => simp at h
    case _ e2 hgy => simp at h

/-- When both coordinates of a point convert, one `max` step of the source
equals folding `max` over the point's coordinate list. -/
theorem maxStep_of_coords (s : Val) (m : ℚ) (h : (numCoords s).length = 2) :
    maxStep m s = .ok ((numCoords s).foldl max m) := by
  obtain ⟨vx, qx, vy, qy, hgx, hnx, hgy, hny, hcoords⟩ := numCoords_two s h
  unfold maxStep
  simp only [hgx, hnx, hgy, hny, exbind_ok, hcoords, List.foldl]
  rw [max_assoc]

theorem maxList_of_coords (d : List Val) :
    ∀ m, (∀ s ∈ d, (numCoords s).length = 2) →
      maxList m d = .ok (((d.map numCoords).flatten).foldl max m) := by
  induction d with
  | nil => intro m _; rfl
  | cons s rest ih =>
      intro m h
      unfold maxList
      rw [maxStep_of_coords s m (h s (List.mem_cons_self s rest))]
      simp only [exbind_ok]
      rw [ih _ (fun t ht => h t (List.mem_cons_of_mem s ht))]
      rw [List.map_cons, List.flatten_cons, List.foldl_append]

theorem maxAll_of_coords (pdata : List (List Val)) :
    ∀ m, (∀ d ∈ pdata, ∀ s ∈ d, (numCoords s).length = 2) →
      maxAll m pdata =
        .ok (((pdata.map fun d => (d.map numCoords).flatten).flatten).foldl max m) := by
  induction pdata with
  | nil => intro m _; rfl
  | cons d rest ih =>
      intro m h
      unfold maxAll
      rw [maxList_of_coords d m (h d (List.mem_cons_self d rest))]
      simp only [exbind_ok]
      rw [ih _ (fun t ht => h t (List.mem_cons_of_mem d ht))]
      rw [List.map_cons, List.flatten_cons, List.foldl_append]

/-- C3 (amended): when `square` is truthy and neither `xmax` nor `ymax` is
present in the config, and every retained point has numerically convertible
`x` and `y`, the builder sets `endOnTick` to false and both `xmax` and
`ymax` to `1.02` times the maximum of 0 and all coordinate values (so the
bound never goes below 0, and with no points at all it is 0); a retained
point whose `x` is null makes the computation raise `TypeError` instead of
ignoring the null. -/
theorem C3_amended_square_bounds (pd : Dict) (plotdata : List (List Val))
    (hsq : truthy (getD pd "square" .none) = true)
    (hx : hasKey pd "xmax" = false) (hy : hasKey pd "ymax" = false) :
    ((∀ d ∈ plotdata, ∀ s ∈ d, (numCoords s).length = 2) →
      squareAdjust pd plotdata =
        .ok (setKey (setKey (setKey pd "endOnTick" (.bool false)) "xmax"
          (.num (mkRat 51 50 * specCoordMax plotdata))) "ymax"
          (.num (mkRat 51 50 * specCoordMax plotdata)))) ∧
    0 ≤ specCoordMax plotdata ∧
    (∀ q ∈ (plotdata.map fun d => (d.map numCoords).flatten).flatten,
        q ≤ specCoordMax plotdata) ∧
    (∀ pp dtail rest, plotdata = (pp :: dtail) :: rest →
      vlookup pp "x" = some Val.none → (∃ w, vlookup pp "y" = some w) →
      squareAdjust pd plotdata = .error .typeError) := by
  have hy' : hasKey (setKey pd "endOnTick" (.bool false)) "ymax" = false := by
    rw [hasKey_setKey_ne pd _ _ _ (by decide)]; exact hy
  have hx' : hasKey (setKey pd "endOnTick" (.bool false)) "xmax" = false := by
    rw [hasKey_setKey_ne pd _ _ _ (by decide)]; exact hx
  refine ⟨?_, le_foldl_max _ 0, fun q hq => mem_le_foldl_max _ 0 q hq, ?_⟩
  · intro hcoords
    unfold squareAdjust
    rw [hsq]
    simp only [if_true, hy', hx', Bool.or_self, Bool.false_eq_true, if_false]
    unfold maxVal
    rw [maxAll_of_coords plotdata 0 hcoords]
    rfl
  · intro pp dtail rest hshape hxnone hyw
    obtain ⟨w, hw⟩ := hyw
    cases pp with
    | dict ppd =>
        subst hshape
        unfold squareAdjust
        rw [hsq]
        simp only [if_true, hy', hx', Bool.or_self, Bool.false_eq_true, if_false]
        unfold maxVal maxAll maxList maxStep
        simp only [vlookup] at hxnone hw
        simp only [getKeyV, hxnone, hw, exbind_ok, numForMax, exbind_err]
    | none => simp [vlookup] at hxnone
    | bool b => simp [vlookup] at hxnone
    | num q => simp [vlookup] at hxnone
    | str t => simp [vlookup] at hxnone
    | list l => simp [vlookup] at hxnone

/-- C3 counterexample: with a single point `(-5, -3)` the code sets
`xmax = 0` (the running maximum starts at 0), not `1.02` times the maximum
coordinate value `-3` as the claim states. -/
theorem C3_counterexample :
    (squareAdjust [("square", .bool true)]
        [[.dict [("x", .num (-5)), ("y", .num (-3))]]]).map
        (fun d => lookup d "xmax") = .ok (some (.num 0)) ∧
    (0 : ℚ) ≠ 51 / 50 * (-3) := by
  constructor
  · rfl
  · norm_num

/-- C3 witness: Scenario D — points `(3,7)` and `(9,1)` give
`xmax = ymax = 9.18`. -/
theorem C3_witness :
    squareAdjust [("square", .bool true)]
        [[.dict [("x", .num 3), ("y", .num 7)],
          .dict [("x", .num 9), ("y", .num 1)]]] =
      .ok [("square", .bool true), ("endOnTick", .bool false),
           ("xmax", .num (mkRat 459 50)), ("ymax", .num (mkRat 459 50))] := by
  have h := (C3_amended_square_bounds [("square", .bool true)]
      [[.dict [("x", .num 3), ("y", .num 7)],
        .dict [("x", .num 9), ("y", .num 1)]]] rfl rfl rfl).1 (by decide)
  rw [h]
  rfl

/-- Defaulting the id touches no other key. -/
theorem ensureId_preserves (env : Env) (pd : Dict) (key : String)
    (h : key ≠ "id") : lookup (ensureId env pd) key = lookup pd key := by
  unfold ensureId
  cases getD pd "id" .none with
  | none => exact lookup_setKey_ne _ _ _ _ h
  | bool b => rfl
  | num q => rfl
  | str s => rfl
  | list l => rfl
  | dict d => rfl

/-- Whenever the markup builder succeeds, the registered payload holds every
dataset reversed, under the final id, with the counter bumped. -/
theorem hc_registered_payload (env : Env) (rpt : Report)
    (plotdata : List (List Val)) (pconfig : Dict) (m : Markup) (pd' : Dict)
    (rpt' : Report)
    (h : highcharts_scatter_plot env rpt plotdata pconfig = .ok (m, pd', rpt')) :
    ∃ idStr, lookup pd' "id" = some (.str idStr) ∧
      lookup rpt'.plot_data idStr =
        some ⟨"scatter", plotdata.map List.reverse, pd'⟩ ∧
      rpt'.num_hc_plots = rpt.num_hc_plots + 1 ∧
      (∀ key, key ≠ "id" → lookup pd' key = lookup pconfig key) := by
  unfold highcharts_scatter_plot at h
  cases hsv : save_htmlid rpt (getD (ensureId env pconfig) "id" .none) with
  | error e => rw [hsv] at h; simp [exbind_err] at h
  | ok sr =>
      rw [hsv] at h
      simp only [exbind_ok] at h
      cases hmc : mkControls plotdata
          (setKey (ensureId env pconfig) "id" (.str sr.1)) sr.1 with
      | error e => rw [hmc] at h; simp [exbind_err] at h
      | ok controls =>
          rw [hmc] at h
          simp only [exbind_ok, Except.ok.injEq, Prod.mk.injEq] at h
          obtain ⟨_, hpd, hrpt⟩ := h
          have hsave : sr.2.num_hc_plots = rpt.num_hc_plots := by
            cases hg : getD (ensureId env pconfig) "id" Val.none with
            | str s =>
                rw [hg] at hsv
                unfold save_htmlid at hsv
                cases hsv
                rfl
            | none => rw [hg] at hsv; cases hsv
            | bool b => rw [hg] at hsv; cases hsv
            | num q => rw [hg] at hsv; cases hsv
            | list l => rw [hg] at hsv; cases hsv
            | dict d => rw [hg] at hsv; cases hsv
          refine ⟨sr.1, ?_, ?_, ?_, ?_⟩
          · rw [← hpd]
            exact lookup_setKey_self _ _ _
          · rw [← hrpt, ← hpd]
            exact lookup_setKey_self _ _ _
          · rw [← hrpt]
            simp [hsave]
          · intro key hkey
            rw [← hpd, lookup_setKey_ne _ _ _ _ hkey,
              ensureId_preserves env pconfig key hkey]

/-- C6: whenever the markup builder succeeds, the payload registered in the
report-wide plot registry under the final plot id holds every dataset in
the exact reverse of the order it was handed in (the order after filtering,
decoration and annotation merging, which is what `plot` passes), the
reversal being applied to nothing but the registered payload; the plot
counter is bumped by one in the same step. -/
theorem C6_registered_datasets_reversed (env : Env) (rpt : Report)
    (plotdata : List (List Val)) (pconfig : Dict) (m : Markup) (pd' : Dict)
    (rpt' : Report)
    (h : highcharts_scatter_plot env rpt plotdata pconfig = .ok (m, pd', rpt')) :
    ∃ idStr, lookup pd' "id" = some (.str idStr) ∧
      lookup rpt'.plot_data idStr =
        some ⟨"scatter", plotdata.map List.reverse, pd'⟩ ∧
      rpt'.num_hc_plots = rpt.num_hc_plots + 1 :=
  have ⟨idStr, h1, h2, h3, _⟩ :=
    hc_registered_payload env rpt plotdata pconfig m pd' rpt' h
  ⟨idStr, h1, h2, h3⟩

/-- C6 witness: a concrete two-point dataset is registered reversed. -/
theorem C6_witness :
    ∃ idStr, lookup [("id", Val.str "plot1")] "id" = some (.str idStr) ∧
      lookup (⟨["plot1"], 1,
          [("plot1", ⟨"scatter", [[Val.str "p", Val.str "q"]].map List.reverse,
            [("id", Val.str "plot1")]⟩)]⟩ : Report).plot_data idStr =
        some ⟨"scatter", [[Val.str "p", Val.str "q"]].map List.reverse,
          [("id", Val.str "plot1")]⟩ ∧
      (⟨["plot1"], 1,
          [("plot1", ⟨"scatter", [[Val.str "p", Val.str "q"]].map List.reverse,
            [("id", Val.str "plot1")]⟩)]⟩ : Report).num_hc_plots =
        (⟨[], 0, []⟩ : Report).num_hc_plots + 1 :=
  C6_registered_datasets_reversed ⟨[], false, Option.none, "abcdefghij"⟩
    ⟨[], 0, []⟩ [[Val.str "p", Val.str "q"]] [("id", Val.str "plot1")]
    ⟨[], "plot1", Option.none⟩ [("id", Val.str "plot1")]
    ⟨["plot1"], 1,
      [("plot1", ⟨"scatter", [[Val.str "p", Val.str "q"]].map List.reverse,
        [("id", Val.str "plot1")]⟩)]⟩ (by rfl)

/-! ### Annotation Merger lemmas  -/

/-- The Annotation Merger as the spec words it: entry `i` of the normalized
extra-series list is appended verbatim to the end of dataset `i`. -/
def specMergeSeries : List (List Val) → List (List Val) → List (List Val)
  | [], pdata => pdata
  | _ :: _, [] => []
  | l :: ls, p :: ps => (p ++ l) :: specMergeSeries ls ps

/-- Shifting the merge index by one past a fixed head dataset. -/
theorem mergeLoop_shift (es : List Val) :
    ∀ i p pdata, mergeLoop es (i + 1) (p :: pdata) = p :: mergeLoop es i pdata := by
  induction es with
  | nil => intro i p pdata; rfl
  | cons esi rest ih =>
      intro i p pdata
      unfold mergeLoop
      cases hit : pyIter esi with
      | error e => rfl
      | ok pts =>
          cases pts with
          | nil => exact ih (i + 1) p pdata
          | cons a t =>
              simp only [List.length_cons, Nat.add_lt_add_iff_right]
              by_cases hi : i < pdata.length
              · simp only [hi, if_true]
                rw [show modifyIdx (i + 1) (· ++ (a :: t)) (p :: pdata) =
                    p :: modifyIdx i (· ++ (a :: t)) pdata from rfl]
                exact ih (i + 1) p _
              · simp only [hi, if_false]

theorem mergeLoop_cons_list_nil (rest : List Val) (i : Nat)
    (pdata : List (List Val)) :
    mergeLoop (Val.list [] :: rest) i pdata = mergeLoop rest (i + 1) pdata := rfl

theorem mergeLoop_cons_list_cons (a : Val) (t : List Val) (rest : List Val)
    (i : Nat) (pdata : List (List Val)) :
    mergeLoop (Val.list (a :: t) :: rest) i pdata =
      if i < pdata.length then
        mergeLoop rest (i + 1) (modifyIdx i (· ++ (a :: t)) pdata)
      else pdata := rfl

/-- The merge loop on a nested list of per-dataset series implements the
spec-side element-wise append. -/
theorem mergeLoop_spec (ls : List (List Val)) :
    ∀ pdata : List (List Val), ls.length ≤ pdata.length →
      mergeLoop (ls.map Val.list) 0 pdata = specMergeSeries ls pdata := by
  induction ls with
  | nil => intro pdata _; rfl
  | cons l rest ih =>
      intro pdata hlen
      cases pdata with
      | nil => simp at hlen
      | cons p ps =>
          show mergeLoop (Val.list l :: rest.map Val.list) 0 (p :: ps) =
            (p ++ l) :: specMergeSeries rest ps
          cases l with
          | nil =>
              rw [mergeLoop_cons_list_nil, mergeLoop_shift (rest.map Val.list) 0 p ps]
              rw [ih ps (by simpa using hlen)]
              simp
          | cons a t =>
              rw [mergeLoop_cons_list_cons]
              simp only [List.length_cons, Nat.zero_lt_succ, if_true]
              rw [show modifyIdx 0 (· ++ (a :: t)) (p :: ps) =
                  (p ++ (a :: t)) :: ps from rfl]
              rw [mergeLoop_shift (rest.map Val.list) 0 (p ++ (a :: t)) ps]
              rw [ih ps (by simpa using hlen)]

/-- C7: the `extra_series` merge — a single point dict is appended only to
dataset 0; a flat list whose first element is a dict is appended only to
dataset 0; a list of lists is appended element-wise, entry `i` onto dataset
`i`; appended values land verbatim (no filtering or decoration touches
them); and a malformed value (here a number) leaves every dataset unchanged
instead of aborting — `mergeExtra` is a total function, every exception of
the source's `try` block being swallowed. -/
theorem C7_extra_series_merge (pd : Dict) :
    (∀ es p0 rest, lookup pd "extra_series" = some (.dict es) → es ≠ [] →
        mergeExtra pd (p0 :: rest) = (p0 ++ [.dict es]) :: rest) ∧
    (∀ d0 t p0 rest, lookup pd "extra_series" = some (.list (.dict d0 :: t)) →
        mergeExtra pd (p0 :: rest) = (p0 ++ (.dict d0 :: t)) :: rest) ∧
    (∀ l0 ls pdata, lookup pd "extra_series" =
          some (.list ((l0 :: ls).map Val.list)) →
        (l0 :: ls).length ≤ pdata.length →
        mergeExtra pd pdata = specMergeSeries (l0 :: ls) pdata) ∧
    (∀ q pdata, lookup pd "extra_series" = some (.num q) →
        mergeExtra pd pdata = pdata) := by
  refine ⟨?_, ?_, ?_, ?_⟩
  · intro es p0 rest hes hne
    unfold mergeExtra
    rw [hes]
    cases es with
    | nil => exact absurd rfl hne
    | cons kv t =>
        simp only [truthy, List.isEmpty_cons, Bool.not_false, if_true, pyIter,
          mergeLoop, List.length_cons, Nat.zero_lt_succ, if_true, modifyIdx]
  · intro d0 t p0 rest hes
    unfold mergeExtra
    rw [hes]
    simp only [truthy, List.isEmpty_cons, Bool.not_false, if_true, pyIter,
      mergeLoop, List.length_cons, Nat.zero_lt_succ, if_true, modifyIdx]
  · intro l0 ls pdata hes hlen
    unfold mergeExtra
    rw [hes]
    simp only [List.map_cons, truthy, List.isEmpty_cons, Bool.not_false,
      if_true, pyIter]
    rw [show mergeLoop (Val.list l0 :: ls.map Val.list) 0 pdata =
        mergeLoop ((l0 :: ls).map Val.list) 0 pdata from rfl]
    exact mergeLoop_spec (l0 :: ls) pdata hlen
  · intro q pdata hes
    unfold mergeExtra
    rw [hes]
    by_cases hq : q = 0
    · subst hq
      simp [truthy]
    · simp [truthy, hq, pyIter]

/-- C7 witness: the three shapes and a malformed value, concretely. -/
theorem C7_witness :
    mergeExtra [("extra_series", .dict [("x", .num 0)])]
        [[.str "a"], [.str "b"]] =
      [[.str "a", .dict [("x", .num 0)]], [.str "b"]] ∧
    mergeExtra [("extra_series", .list [.dict [("x", .num 1)], .dict [("y", .num 2)]])]
        [[.str "a"], [.str "b"]] =
      [[.str "a", .dict [("x", .num 1)], .dict [("y", .num 2)]], [.str "b"]] ∧
    mergeExtra [("extra_series", .list [.list [.str "e1"], .list [.str "e2"]])]
        [[.str "a"], [.str "b"]] =
      [[.str "a", .str "e1"], [.str "b", .str "e2"]] ∧
    mergeExtra [("extra_series", .num 5)] [[.str "a"]] = [[.str "a"]] := by
  refine ⟨?_, ?_, ?_, ?_⟩
  · exact ((C7_extra_series_merge [("extra_series", .dict [("x", .num 0)])]).1
      [("x", .num 0)] [.str "a"] [[.str "b"]] rfl (by simp)).trans (by rfl)
  · exact ((C7_extra_series_merge
      [("extra_series", .list [.dict [("x", .num 1)], .dict [("y", .num 2)]])]).2.1
      [("x", .num 1)] [.dict [("y", .num 2)]] [.str "a"] [[.str "b"]] rfl).trans
      (by rfl)
  · exact ((C7_extra_series_merge
      [("extra_series", .list [.list [.str "e1"], .list [.str "e2"]])]).2.2.1
      [.str "e1"] [[.str "e2"]] [[.str "a"], [.str "b"]] rfl (by simp)).trans
      (by rfl)
  · exact (C7_extra_series_merge [("extra_series", .num 5)]).2.2.2 5
      [[.str "a"]] rfl

/-- C8: when the template hook exists but raises, a build with the
strict-mode flag off returns exactly what the built-in markup generator
would produce (the same as running with no hook at all), while a build with
strict mode on propagates the failure to the caller as an error — no
built-in markup is produced. -/
theorem C8_hook_failure_fallback (cpc : List (String × Dict)) (strict : Bool)
    (f : List (List Val) → Dict → Except Unit String) (rand : String)
    (rpt : Report) (data pconfig0 : Val)
    (hfail : ∀ a b, f a b = .error ()) :
    (strict = false →
      plot ⟨cpc, strict, some f, rand⟩ rpt data pconfig0 =
        plot ⟨cpc, strict, Option.none, rand⟩ rpt data pconfig0) ∧
    (strict = true → ∀ r, plotPrep cpc data pconfig0 = .ok r →
      plot ⟨cpc, strict, some f, rand⟩ rpt data pconfig0 = .error .hookError) := by
  constructor
  · intro hstrict
    subst hstrict
    unfold plot
    cases hp : plotPrep cpc data pconfig0 with
    | error e => simp only [exbind_err]
    | ok r =>
        simp only [exbind_ok]
        rw [hfail r.2.2 r.1]
        rfl
  · intro hstrict r hp
    subst hstrict
    unfold plot
    rw [hp]
    simp only [exbind_ok]
    rw [hfail r.2.2 r.1]
    rfl

/-- C8 witness: a constantly-raising hook at a concrete input, in both
modes. -/
theorem C8_witness :
    plot ⟨[], false, some fun _ _ => .error (), "abcdefghij"⟩ ⟨[], 0, []⟩
        (.dict []) .none =
      plot ⟨[], false, Option.none, "abcdefghij"⟩ ⟨[], 0, []⟩ (.dict []) .none ∧
    plot ⟨[], true, some fun _ _ => .error (), "abcdefghij"⟩ ⟨[], 0, []⟩
        (.dict []) .none = .error .hookError := by
  constructor
  · exact (C8_hook_failure_fallback [] false (fun _ _ => .error ()) "abcdefghij"
      ⟨[], 0, []⟩ (.dict []) .none (fun a b => rfl)).1 rfl
  · exact (C8_hook_failure_fallback [] true (fun _ _ => .error ()) "abcdefghij"
      ⟨[], 0, []⟩ (.dict []) .none (fun a b => rfl)).2 rfl
      ([], .dict [], [[]]) (by rfl)

/-- C9: with more than one dataset the markup carries exactly one switch
control per dataset — labeled by the `name` entry when the `data_labels`
entry is a dict carrying one, by the bare value when the entry is not a
dict, and by the 1-based dataset index otherwise (entry missing, or a dict
without `name`) — and only the control of dataset 0 is active; with at most
one dataset no switch controls are emitted. -/
theorem C9_switch_controls (plotdata : List (List Val)) (pd : Dict)
    (idStr : String) :
    (plotdata.length ≤ 1 → mkControls plotdata pd idStr = .ok []) ∧
    (∀ dlsRaw : List Val, lookup pd "data_labels" = some (.list dlsRaw) →
      1 < plotdata.length →
      mkControls plotdata pd idStr =
        .ok ((List.range plotdata.length).map
          (mkControl (dlsRaw.map fun dl =>
            match dl with
            | .dict _ => dl
            | v => Val.dict [("name", v)]) idStr))) ∧
    (lookup pd "data_labels" = Option.none → 1 < plotdata.length →
      mkControls plotdata pd idStr =
        .ok ((List.range plotdata.length).map (mkControl [] idStr))) ∧
    (∀ n, ((List.range n).map (mkControl [] idStr)).length = n) ∧
    (∀ dls k idS, (mkControl dls idS k).active = decide (k = 0)) ∧
    (∀ dls k idS d v, dls[k]? = some (.dict d) → lookup d "name" = some v →
      (mkControl dls idS k).name = v) ∧
    (∀ dls k idS d, dls[k]? = some (.dict d) → lookup d "name" = Option.none →
      (mkControl dls idS k).name = .num (k + 1)) ∧
    (∀ dls k idS, dls[k]? = Option.none →
      (mkControl dls idS k).name = .num (k + 1)) ∧
    (∀ dls k idS, (mkControl dls idS k).newdata = k ∧
      (mkControl dls idS k).target = idS) := by
  refine ⟨?_, ?_, ?_, ?_, ?_, ?_, ?_, ?_, ?_⟩
  · intro hle
    unfold mkControls
    rw [if_neg (by omega)]
  · intro dlsRaw hdl hlen
    unfold mkControls
    rw [if_pos (by omega)]
    simp only [getD, hdl, Option.getD_some, pyIter, exbind_ok]
  · intro hdl hlen
    unfold mkControls
    rw [if_pos (by omega)]
    simp only [getD, hdl, Option.getD_none, pyIter, exbind_ok, List.map_nil]
  · intro n
    simp
  · intro dls k idS
    rfl
  · intro dls k idS d v hk hname
    unfold mkControl
    simp only [hk, hname]
  · intro dls k idS d hk hname
    unfold mkControl
    simp only [hk, hname]
  · intro dls k idS hk
    unfold mkControl
    simp only [hk]
  · intro dls k idS
    exact ⟨rfl, rfl⟩

/-- C9 witness: Scenario C — two datasets labeled `Run1` and `Run2`, only
the first control active. -/
theorem C9_witness :
    mkControls [[.str "p"], [.str "q"]]
        [("data_labels", .list [.dict [("name", .str "Run1")],
          .dict [("name", .str "Run2")]])] "plotX" =
      .ok [⟨true, .str "Run1", "data-ylab=\"Run1\"", "", "data-xlab=\"Run1\"",
            0, "plotX"⟩,
           ⟨false, .str "Run2", "data-ylab=\"Run2\"", "", "data-xlab=\"Run2\"",
            1, "plotX"⟩] ∧
    mkControls [[.str "p"]]
        [("data_labels", .list [.dict [("name", .str "Run1")]])] "plotX" =
      .ok [] := by
  constructor
  · exact ((C9_switch_controls [[.str "p"], [.str "q"]]
      [("data_labels", .list [.dict [("name", .str "Run1")],
        .dict [("name", .str "Run2")]])] "plotX").2.1
      [.dict [("name", .str "Run1")], .dict [("name", .str "Run2")]]
      rfl (by decide)).trans (by rfl)
  · exact (C9_switch_controls [[.str "p"]]
      [("data_labels", .list [.dict [("name", .str "Run1")]])] "plotX").1
      (by decide)

/-! ### Frame-effect lemmas: how the builder mutates its arguments  -/

/-- Every kept point leaves the filter/decorator with a string name. -/
theorem processPoint_name (sc : Dict) (s : String) (point p' : Val)
    (h : processPoint sc s point = .ok (some p')) :
    ∃ s', vlookup p' "name" = some (.str s') := by
  cases point with
  | dict pd =>
      obtain ⟨px, py, _, _, _, _, hp⟩ := processPoint_ok_some sc pd s p' h
      subst hp
      simp only [vlookup]
      rw [lookup_decorate_ne _ _ _ _ (by decide) (by decide) (by decide) (by decide)]
      unfold renamePoint
      cases lookup pd "name" with
      | none => exact ⟨s, lookup_setKey_self _ _ _⟩
      | some nm => exact ⟨s ++ ": " ++ pyStr nm, lookup_setKey_self _ _ _⟩
  | none => simp [processPoint] at h
  | bool b => simp [processPoint] at h
  | num q => simp [processPoint] at h
  | str t => simp [processPoint] at h
  | list l => simp [processPoint] at h

/-- Every kept point of a sample is an element of the sample's mutated
point list and carries a name. -/
theorem processPts_shape (sc : Dict) (s : String) :
    ∀ pts ps kept, processPts sc s pts = .ok (ps, kept) →
      ∀ p ∈ kept, (∃ s', vlookup p "name" = some (.str s')) ∧ p ∈ ps := by
  intro pts
  induction pts with
  | nil =>
      intro ps kept h p hp
      simp only [processPts, Except.ok.injEq, Prod.mk.injEq] at h
      rw [← h.2] at hp
      cases hp
  | cons q rest ih =>
      intro ps kept h p hp
      unfold processPts at h
      cases hq : processPoint sc s q with
      | error e => rw [hq] at h; simp [exbind_err] at h
      | ok r =>
          rw [hq] at h
          simp only [exbind_ok] at h
          cases hrest : processPts sc s rest with
          | error e => rw [hrest] at h; simp [exbind_err] at h
          | ok pr =>
              rw [hrest] at h
              simp only [exbind_ok] at h
              cases r with
              | none =>
                  simp only [Except.ok.injEq, Prod.mk.injEq] at h
                  obtain ⟨hps, hkept⟩ := h
                  rw [← hkept] at hp
                  obtain ⟨hname, hmem⟩ := ih pr.1 pr.2 (by rw [hrest]) p hp
                  exact ⟨hname, by rw [← hps]; exact List.mem_cons_of_mem q hmem⟩
              | some p'' =>
                  simp only [Except.ok.injEq, Prod.mk.injEq] at h
                  obtain ⟨hps, hkept⟩ := h
                  rw [← hkept] at hp
                  rcases List.mem_cons.mp hp with hcase | hcase
                  · subst hcase
                    refine ⟨processPoint_name sc s q p hq, ?_⟩
                    rw [← hps]
                    exact List.mem_cons_self _ _
                  · obtain ⟨hname, hmem⟩ := ih pr.1 pr.2 (by rw [hrest]) p hcase
                    exact ⟨hname, by rw [← hps]; exact List.mem_cons_of_mem p'' hmem⟩

/-- One sample's processing always leaves a list in the mapping, holding
every kept point. -/
theorem processSample_shape (sc : Dict) (s : String) (v v' : Val)
    (kept : List Val) (h : processSample sc s v = .ok (v', kept)) :
    ∃ l, v' = Val.list l ∧
      ∀ p ∈ kept, (∃ s', vlookup p "name" = some (.str s')) ∧ p ∈ l := by
  unfold processSample at h
  revert h
  generalize hg : (match v with | Val.list l => l | w => [w]) = pts
  intro h
  cases hpts : processPts sc s pts with
  | error e => rw [hpts] at h; simp [exbind_err] at h
  | ok pr =>
      rw [hpts] at h
      simp only [exbind_ok, Except.ok.injEq, Prod.mk.injEq] at h
      obtain ⟨hv, hk⟩ := h
      refine ⟨pr.1, hv.symm, ?_⟩
      intro p hp
      rw [← hk] at hp
      exact processPts_shape sc s _ pr.1 pr.2 (by rw [hpts]) p hp

/-- Every entry of a processed dataset mapping holds a list, and every kept
point lives in one of those lists with a name. -/
theorem processEntries_shape (pconfig : Dict) (i : Nat) :
    ∀ entries entries' kept,
      processEntries pconfig i entries = .ok (entries', kept) →
      (∀ kv ∈ entries', ∃ l, (kv : String × Val).2 = Val.list l) ∧
      (∀ p ∈ kept, (∃ s', vlookup p "name" = some (.str s')) ∧
        ∃ kv ∈ entries', ∃ l, (kv : String × Val).2 = Val.list l ∧ p ∈ l) := by
  intro entries
  induction entries with
  | nil =>
      intro entries' kept h
      simp only [processEntries, Except.ok.injEq, Prod.mk.injEq] at h
      constructor
      · intro kv hkv; rw [← h.1] at hkv; cases hkv
      · intro p hp; rw [← h.2] at hp; cases hp
  | cons ent rest ih =>
      intro entries' kept h
      obtain ⟨s_name, v⟩ := ent
      unfold processEntries at h
      cases hsc : seriesConfig pconfig i with
      | error e => rw [hsc] at h; simp [exbind_err] at h
      | ok sc =>
          rw [hsc] at h
          simp only [exbind_ok] at h
          cases hsamp : processSample sc s_name v with
          | error e => rw [hsamp] at h; simp [exbind_err] at h
          | ok sv =>
              rw [hsamp] at h
              simp only [exbind_ok] at h
              cases hrest : processEntries pconfig i rest with
              | error e => rw [hrest] at h; simp [exbind_err] at h
              | ok pr =>
                  rw [hrest] at h
                  simp only [exbind_ok, Except.ok.injEq, Prod.mk.injEq] at h
                  obtain ⟨hes, hks⟩ := h
                  obtain ⟨l, hl, hlk⟩ :=
                    processSample_shape sc s_name v sv.1 sv.2 (by rw [hsamp])
                  obtain ⟨ih1, ih2⟩ := ih pr.1 pr.2 (by rw [hrest])
                  constructor
                  · intro kv hkv
                    rw [← hes] at hkv
                    rcases List.mem_cons.mp hkv with hc | hc
                    · subst hc; exact ⟨l, hl⟩
                    · exact ih1 kv hc
                  · intro p hp
                    rw [← hks] at hp
                    rcases List.mem_append.mp hp with hc | hc
                    · obtain ⟨hname, hmem⟩ := hlk p hc
                      refine ⟨hname, (s_name, sv.1), ?_, l, hl, hmem⟩
                      rw [← hes]; exact List.mem_cons_self _ _
                    · obtain ⟨hname, kv, hkv, l2, hl2, hmem⟩ := ih2 p hc
                      refine ⟨hname, kv, ?_, l2, hl2, hmem⟩
                      rw [← hes]; exact List.mem_cons_of_mem _ hkv

/-- A processed dataset is a mapping of lists holding the kept points. -/
theorem processDataset_shape (pconfig : Dict) (i : Nat) (ds ds' : Val)
    (kept : List Val) (h : processDataset pconfig i ds = .ok (ds', kept)) :
    ∃ e, ds' = Val.dict e ∧ (∀ kv ∈ e, ∃ l, (kv : String × Val).2 = Val.list l) ∧
      ∀ p ∈ kept, (∃ s', vlookup p "name" = some (.str s')) ∧
        ∃ kv ∈ e, ∃ l, (kv : String × Val).2 = Val.list l ∧ p ∈ l := by
  cases ds with
  | dict d =>
      simp only [processDataset] at h
      cases hpe : processEntries pconfig i d with
      | error e => rw [hpe] at h; simp [exbind_err] at h
      | ok pr =>
          rw [hpe] at h
          simp only [exbind_ok, Except.ok.injEq, Prod.mk.injEq] at h
          obtain ⟨hds, hk⟩ := h
          obtain ⟨h1, h2⟩ := processEntries_shape pconfig i d pr.1 pr.2 (by rw [hpe])
          exact ⟨pr.1, hds.symm, h1, by rw [← hk]; exact h2⟩
  | none => simp [processDataset] at h
  | bool b => simp [processDataset] at h
  | num q => simp [processDataset] at h
  | str t => simp [processDataset] at h
  | list l => simp [processDataset] at h

/-- The whole dataset loop: the mutated data is a list of mappings of
lists, and every filtered point lives inside one of those lists, named. -/
theorem processAll_shape (pconfig : Dict) :
    ∀ dsl i data' plotdata, processAll pconfig i dsl = .ok (data', plotdata) →
      (∀ ds ∈ data', ∃ e, ds = Val.dict e ∧
        ∀ kv ∈ e, ∃ l, (kv : String × Val).2 = Val.list l) ∧
      (∀ d ∈ plotdata, ∀ p ∈ d,
        (∃ s', vlookup p "name" = some (.str s')) ∧
        ∃ ds ∈ data', ∃ e, ds = Val.dict e ∧
          ∃ kv ∈ e, ∃ l, (kv : String × Val).2 = Val.list l ∧ p ∈ l) := by
  intro dsl
  induction dsl with
  | nil =>
      intro i data' plotdata h
      simp only [processAll, Except.ok.injEq, Prod.mk.injEq] at h
      constructor
      · intro ds hds; rw [← h.1] at hds; cases hds
      · intro d hd; rw [← h.2] at hd; cases hd
  | cons ds0 rest ih =>
      intro i data' plotdata h
      unfold processAll at h
      cases hd0 : processDataset pconfig i ds0 with
      | error e => rw [hd0] at h; simp [exbind_err] at h
      | ok pr0 =>
          rw [hd0] at h
          simp only [exbind_ok] at h
          cases hrest : processAll pconfig (i + 1) rest with
          | error e => rw [hrest] at h; simp [exbind_err] at h
          | ok pr =>
              rw [hrest] at h
              simp only [exbind_ok, Except.ok.injEq, Prod.mk.injEq] at h
              obtain ⟨hdata, hplot⟩ := h
              obtain ⟨e0, he0, he0l, he0k⟩ :=
                processDataset_shape pconfig i ds0 pr0.1 pr0.2 (by rw [hd0])
              obtain ⟨ih1, ih2⟩ := ih (i + 1) pr.1 pr.2 (by rw [hrest])
              constructor
              · intro ds hds
                rw [← hdata] at hds
                rcases List.mem_cons.mp hds with hc | hc
                · subst hc; exact ⟨e0, he0, he0l⟩
                · exact ih1 ds hc
              · intro d hd p hp
                rw [← hplot] at hd
                rcases List.mem_cons.mp hd with hc | hc
                · subst hc
                  obtain ⟨hname, kv, hkv, l, hl, hm⟩ := he0k p hp
                  refine ⟨hname, pr0.1, ?_, e0, he0, kv, hkv, l, hl, hm⟩
                  rw [← hdata]; exact List.mem_cons_self _ _
                · obtain ⟨hname, ds2, hds2, rest2⟩ := ih2 d hc p hp
                  refine ⟨hname, ds2, ?_, rest2⟩
                  rw [← hdata]; exact List.mem_cons_of_mem _ hds2

/-- The caller's datasets view of the (possibly un-wrapped) data value. -/
def dataListOf : Val → List Val
  | .list l => l
  | v => [v]

/-- The caller-visible data value rebuilt after the dataset loop. -/
def wrapOut (data : Val) (data' : List Val) : Val :=
  match data with
  | .list _ => Val.list data'
  | _ => data'.headD (.dict [])

theorem hasKey_false_lookup (d : Dict) (k : String) (h : hasKey d k = false) :
    lookup d k = Option.none := by
  unfold hasKey at h
  cases hl : lookup d k with
  | none => rfl
  | some v => rw [hl] at h; simp at h

/-- With no per-report overrides configured, the overlay is the identity. -/
theorem applyCustom_nil (pd : Dict) : applyCustom [] pd = pd := by
  unfold applyCustom
  cases lookup pd "id" with
  | none => rfl
  | some idv =>
      cases htr : truthy idv with
      | false => simp [htr]
      | true =>
          simp only [htr, if_true]
          cases idv with
          | str s => simp [lookup]
          | none => rfl
          | bool b => rfl
          | num q => rfl
          | list l => rfl
          | dict d => rfl

/-- Inverting a successful `plotCore` on a dict config. -/
theorem plotCore_dict_ok (cpc : List (String × Dict)) (data : Val)
    (pc0 pd : Dict) (dataOut : Val) (plotdata : List (List Val))
    (h : plotCore cpc data (.dict pc0) = .ok (pd, dataOut, plotdata)) :
    pd = applyCustom cpc pc0 ∧
    ∃ data', processAll (applyCustom cpc pc0) 0 (dataListOf data) =
        .ok (data', plotdata) ∧
      dataOut = wrapOut data data' := by
  unfold plotCore at h
  simp only [exbind_ok] at h
  cases data with
  | list l =>
      simp only [dataListOf]
      cases hpa : processAll (applyCustom cpc pc0) 0 l with
      | error e => rw [hpa] at h; simp [exbind_err] at h
      | ok pr =>
          rw [hpa] at h
          simp only [exbind_ok, Except.ok.injEq, Prod.mk.injEq] at h
          exact ⟨h.1.symm, pr.1, by rw [← h.2.2], h.2.1.symm⟩
  | none =>
      simp only [dataListOf]
      cases hpa : processAll (applyCustom cpc pc0) 0 [Val.none] with
      | error e => rw [hpa] at h; simp [exbind_err] at h
      | ok pr =>
          rw [hpa] at h
          simp only [exbind_ok, Except.ok.injEq, Prod.mk.injEq] at h
          exact ⟨h.1.symm, pr.1, by rw [← h.2.2], h.2.1.symm⟩
  | bool b =>
      simp only [dataListOf]
      cases hpa : processAll (applyCustom cpc pc0) 0 [Val.bool b] with
      | error e => rw [hpa] at h; simp [exbind_err] at h
      | ok pr =>
          rw [hpa] at h
          simp only [exbind_ok, Except.ok.injEq, Prod.mk.injEq] at h
          exact ⟨h.1.symm, pr.1, by rw [← h.2.2], h.2.1.symm⟩
  | num q =>
      simp only [dataListOf]
      cases hpa : processAll (applyCustom cpc pc0) 0 [Val.num q] with
      | error e => rw [hpa] at h; simp [exbind_err] at h
      | ok pr =>
          rw [hpa] at h
          simp only [exbind_ok, Except.ok.injEq, Prod.mk.injEq] at h
          exact ⟨h.1.symm, pr.1, by rw [← h.2.2], h.2.1.symm⟩
  | str t =>
      simp only [dataListOf]
      cases hpa : processAll (applyCustom cpc pc0) 0 [Val.str t] with
      | error e => rw [hpa] at h; simp [exbind_err] at h
      | ok pr =>
          rw [hpa] at h
          simp only [exbind_ok, Except.ok.injEq, Prod.mk.injEq] at h
          exact ⟨h.1.symm, pr.1, by rw [← h.2.2], h.2.1.symm⟩
  | dict dd =>
      simp only [dataListOf]
      cases hpa : processAll (applyCustom cpc pc0) 0 [Val.dict dd] with
      | error e => rw [hpa] at h; simp [exbind_err] at h
      | ok pr =>
          rw [hpa] at h
          simp only [exbind_ok, Except.ok.injEq, Prod.mk.injEq] at h
          exact ⟨h.1.symm, pr.1, by rw [← h.2.2], h.2.1.symm⟩

/-- A one-dataset input produces exactly one mutated mapping and one
filtered dataset. -/
theorem processAll_singleton (pconfig : Dict) (i : Nat) (x : Val)
    (data' : List Val) (pdata : List (List Val))
    (h : processAll pconfig i [x] = .ok (data', pdata)) :
    ∃ ds' kept, data' = [ds'] ∧ pdata = [kept] ∧
      processDataset pconfig i x = .ok (ds', kept) := by
  unfold processAll at h
  cases hd : processDataset pconfig i x with
  | error e => rw [hd] at h; simp [exbind_err] at h
  | ok pr =>
      rw [hd] at h
      simp only [processAll, exbind_ok, Except.ok.injEq, Prod.mk.injEq] at h
      exact ⟨pr.1, pr.2, h.1.symm, h.2.symm, by simp [hd]⟩

/-- The square block leaves every key other than `endOnTick`, `xmax` and
`ymax` alone. -/
theorem squareAdjust_preserves (pd : Dict) (pdata : List (List Val))
    (pd2 : Dict) (h : squareAdjust pd pdata = .ok pd2) (key : String)
    (h1 : key ≠ "endOnTick") (h2 : key ≠ "xmax") (h3 : key ≠ "ymax") :
    lookup pd2 key = lookup pd key := by
  unfold squareAdjust at h
  cases htr : truthy (getD pd "square" .none) with
  | false => rw [htr] at h; simp at h; rw [← h]
  | true =>
      rw [htr] at h
      simp only [if_true] at h
      cases hb : (hasKey (setKey pd "endOnTick" (.bool false)) "ymax" ||
          hasKey (setKey pd "endOnTick" (.bool false)) "xmax") with
      | true =>
          rw [hb] at h
          simp only [if_true, Except.ok.injEq] at h
          rw [← h, lookup_setKey_ne _ _ _ _ h1]
      | false =>
          rw [hb] at h
          simp only [Bool.false_eq_true, if_false] at h
          cases hm : maxVal pdata with
          | error e => rw [hm] at h; simp [exbind_err] at h
          | ok m =>
              rw [hm] at h
              simp only [exbind_ok, Except.ok.injEq] at h
              rw [← h, lookup_setKey_ne _ _ _ _ h3,
                lookup_setKey_ne _ _ _ _ h2, lookup_setKey_ne _ _ _ _ h1]

/-- When `square` is truthy the square block stores `endOnTick`, and also
`xmax` and `ymax` when neither was present. -/
theorem squareAdjust_gains (pd : Dict) (pdata : List (List Val)) (pd2 : Dict)
    (h : squareAdjust pd pdata = .ok pd2)
    (hsq : truthy (getD pd "square" .none) = true) :
    hasKey pd2 "endOnTick" = true ∧
    (hasKey pd "xmax" = false → hasKey pd "ymax" = false →
      hasKey pd2 "xmax" = true ∧ hasKey pd2 "ymax" = true) := by
  unfold squareAdjust at h
  rw [hsq] at h
  simp only [if_true] at h
  cases hb : (hasKey (setKey pd "endOnTick" (.bool false)) "ymax" ||
      hasKey (setKey pd "endOnTick" (.bool false)) "xmax") with
  | true =>
      rw [hb] at h
      simp only [if_true, Except.ok.injEq] at h
      constructor
      · rw [← h]; exact hasKey_setKey_self _ _ _
      · intro hx hy
        rw [hasKey_setKey_ne _ _ _ _ (by decide),
          hasKey_setKey_ne _ _ _ _ (by decide), hy, hx] at hb
        simp at hb
  | false =>
      rw [hb] at h
      simp only [Bool.false_eq_true, if_false] at h
      cases hm : maxVal pdata with
      | error e => rw [hm] at h; simp [exbind_err] at h
      | ok m =>
          rw [hm] at h
          simp only [exbind_ok, Except.ok.injEq] at h
          constructor
          · rw [← h, hasKey_setKey_ne _ _ _ _ (by decide),
              hasKey_setKey_ne _ _ _ _ (by decide)]
            exact hasKey_setKey_self _ _ _
          · intro _ _
            constructor
            · rw [← h, hasKey_setKey_ne _ _ _ _ (by decide)]
              exact hasKey_setKey_self _ _ _
            · rw [← h]
              exact hasKey_setKey_self _ _ _

/-- Without an `extra_series` key the Annotation Merger changes nothing. -/
theorem mergeExtra_no_key (pd : Dict) (pdata : List (List Val))
    (h : lookup pd "extra_series" = Option.none) :
    mergeExtra pd pdata = pdata := by
  unfold mergeExtra
  rw [h]

/-- The caller-visible data after the dataset loop is exactly the list of
mutated dataset mappings, whether or not the input was wrapped. -/
theorem dataOut_lists (pconfig : Dict) (data : Val) (data' : List Val)
    (plotdata : List (List Val))
    (hpall : processAll pconfig 0 (dataListOf data) = .ok (data', plotdata)) :
    dataListOf (wrapOut data data') = data' := by
  cases data with
  | list l => rfl
  | none =>
      obtain ⟨ds', kept, hd, _, hds⟩ :=
        processAll_singleton pconfig 0 _ data' plotdata hpall
      obtain ⟨e, he, _, _⟩ := processDataset_shape pconfig 0 _ ds' kept hds
      subst hd
      subst he
      rfl
  | bool b =>
      obtain ⟨ds', kept, hd, _, hds⟩ :=
        processAll_singleton pconfig 0 _ data' plotdata hpall
      obtain ⟨e, he, _, _⟩ := processDataset_shape pconfig 0 _ ds' kept hds
      subst hd
      subst he
      rfl
  | num q =>
      obtain ⟨ds', kept, hd, _, hds⟩ :=
        processAll_singleton pconfig 0 _ data' plotdata hpall
      obtain ⟨e, he, _, _⟩ := processDataset_shape pconfig 0 _ ds' kept hds
      subst hd
      subst he
      rfl
  | str t =>
      obtain ⟨ds', kept, hd, _, hds⟩ :=
        processAll_singleton pconfig 0 _ data' plotdata hpall
      obtain ⟨e, he, _, _⟩ := processDataset_shape pconfig 0 _ ds' kept hds
      subst hd
      subst he
      rfl
  | dict dd =>
      obtain ⟨ds', kept, hd, _, hds⟩ :=
        processAll_singleton pconfig 0 _ data' plotdata hpall
      obtain ⟨e, he, _, _⟩ := processDataset_shape pconfig 0 _ ds' kept hds
      subst hd
      subst he
      rfl

/-- C10: frame effects of a successful build through the built-in path (no
template hook, no per-report overrides, no extra series), rendered
observationally: afterwards the caller's data mapping holds a list under
every sample key (the scalar-point wrapping happened in the caller's
objects); the caller's config dict carries the computed `id` — and, when
`square` was truthy, `endOnTick`, plus `xmax`/`ymax` when absent before;
and the registered payload is built from those same mutated objects: its
config is the caller's mutated config, and every point of its datasets is
an element of a list now sitting in the caller's data mapping, already
named by the filter stage. -/
theorem C10_in_place_mutation (strict : Bool) (rand : String) (rpt : Report)
    (data : Val) (pc0 : Dict) (res : PlotOk)
    (hrun : plot ⟨[], strict, Option.none, rand⟩ rpt data (.dict pc0) = .ok res)
    (hnx : hasKey pc0 "extra_series" = false) :
    (∀ ds ∈ dataListOf res.data, ∃ e, ds = Val.dict e ∧
      ∀ kv ∈ e, ∃ l, (kv : String × Val).2 = Val.list l) ∧
    (∃ idStr pay, lookup res.pconfig "id" = some (.str idStr) ∧
      lookup res.report.plot_data idStr = some pay ∧
      pay.config = res.pconfig ∧
      res.report.num_hc_plots = rpt.num_hc_plots + 1 ∧
      ∀ d ∈ pay.datasets, ∀ p ∈ d,
        (∃ s', vlookup p "name" = some (.str s')) ∧
        ∃ ds ∈ dataListOf res.data, ∃ e, ds = Val.dict e ∧
          ∃ kv ∈ e, ∃ l, (kv : String × Val).2 = Val.list l ∧ p ∈ l) ∧
    (truthy (getD pc0 "square" .none) = true →
      hasKey res.pconfig "endOnTick" = true ∧
      (hasKey pc0 "xmax" = false → hasKey pc0 "ymax" = false →
        hasKey res.pconfig "xmax" = true ∧ hasKey res.pconfig "ymax" = true)) := by
  unfold plot plotPrep at hrun
  cases hpc : plotCore [] data (.dict pc0) with
  | error e => rw [hpc] at hrun; simp [exbind_err] at hrun
  | ok r0 =>
      rw [hpc] at hrun
      simp only [exbind_ok] at hrun
      cases hsq2 : squareAdjust r0.1 r0.2.2 with
      | error e => rw [hsq2] at hrun; simp [exbind_err] at hrun
      | ok pd2 =>
          rw [hsq2] at hrun
          simp only [exbind_ok] at hrun
          cases hhc : highcharts_scatter_plot ⟨[], strict, Option.none, rand⟩
              rpt (mergeExtra pd2 r0.2.2) pd2 with
          | error e => rw [hhc] at hrun; simp [exbind_err] at hrun
          | ok hcr =>
              rw [hhc] at hrun
              simp only [exbind_ok, Except.ok.injEq] at hrun
              obtain ⟨rhtml, rdata, rpconfig, rreport⟩ := res
              simp only [PlotOk.mk.injEq] at hrun
              obtain ⟨hH, hD, hP, hR⟩ := hrun
              obtain ⟨hpd0, data', hpall, hdataOut⟩ :=
                plotCore_dict_ok [] data pc0 r0.1 r0.2.1 r0.2.2 (by rw [hpc])
              rw [applyCustom_nil] at hpd0
              rw [applyCustom_nil] at hpall
              obtain ⟨hshape1, hshape2⟩ :=
                processAll_shape pc0 (dataListOf data) 0 data' r0.2.2 hpall
              have hDL : dataListOf rdata = data' := by
                rw [← hD, hdataOut]
                exact dataOut_lists pc0 data data' r0.2.2 hpall
              have hmerge : mergeExtra pd2 r0.2.2 = r0.2.2 := by
                apply mergeExtra_no_key
                rw [squareAdjust_preserves r0.1 r0.2.2 pd2 hsq2 _ (by decide)
                  (by decide) (by decide), hpd0]
                exact hasKey_false_lookup pc0 _ hnx
              rw [hmerge] at hhc
              obtain ⟨idStr, hid, hreg, hcount, hpres⟩ :=
                hc_registered_payload ⟨[], strict, Option.none, rand⟩ rpt
                  r0.2.2 pd2 hcr.1 hcr.2.1 hcr.2.2 (by rw [hhc])
              refine ⟨?_, ?_, ?_⟩
              · intro ds hds
                rw [hDL] at hds
                exact hshape1 ds hds
              · refine ⟨idStr, ⟨"scatter", r0.2.2.map List.reverse, hcr.2.1⟩,
                  ?_, ?_, by rw [hP], ?_, ?_⟩
                · rw [← hP]; exact hid
                · rw [← hR]; exact hreg
                · rw [← hR]; exact hcount
                · intro d hd p hp
                  obtain ⟨d0, hd0, hdrev⟩ := List.mem_map.mp hd
                  rw [← hdrev] at hp
                  have hp0 : p ∈ d0 := List.mem_reverse.mp hp
                  obtain ⟨hname, ds, hdsmem, rest⟩ := hshape2 d0 hd0 p hp0
                  refine ⟨hname, ds, ?_, rest⟩
                  rw [hDL]
                  exact hdsmem
              · intro hsq
                have hsq' : truthy (getD r0.1 "square" .none) = true := by
                  rw [hpd0]; exact hsq
                obtain ⟨hend, hbounds⟩ :=
                  squareAdjust_gains r0.1 r0.2.2 pd2 hsq2 hsq'
                have htransfer : ∀ key, key ≠ "id" →
                    hasKey rpconfig key = hasKey pd2 key := by
                  intro key hkey
                  rw [← hP]
                  unfold hasKey
                  rw [hpres key hkey]
                constructor
                · rw [htransfer _ (by decide)]
                  exact hend
                · intro hx hy
                  have hx' : hasKey r0.1 "xmax" = false := by rw [hpd0]; exact hx
                  have hy' : hasKey r0.1 "ymax" = false := by rw [hpd0]; exact hy
                  obtain ⟨h1, h2⟩ := hbounds hx' hy'
                  exact ⟨by rw [htransfer _ (by decide)]; exact h1,
                    by rw [htransfer _ (by decide)]; exact h2⟩

/-- C10 witness: one concrete build — the caller's scalar point is now a
one-element list carrying the computed name, the config gained the id, and
the registry aliases both. -/
theorem C10_witness :
    (∀ ds ∈ dataListOf (.dict [("s1", .list [.dict [("x", .num 1), ("y", .num 2),
        ("name", .str "s1")]])]),
      ∃ e, ds = Val.dict e ∧ ∀ kv ∈ e, ∃ l, (kv : String × Val).2 = Val.list l) ∧
    (∃ idStr pay,
      lookup [("id", Val.str "mqc_hcplot_abcdefghij")] "id" = some (.str idStr) ∧
      lookup [("mqc_hcplot_abcdefghij",
          (⟨"scatter", [[.dict [("x", .num 1), ("y", .num 2), ("name", .str "s1")]]],
            [("id", Val.str "mqc_hcplot_abcdefghij")]⟩ : Payload))] idStr =
        some pay ∧
      pay.config = [("id", Val.str "mqc_hcplot_abcdefghij")] ∧
      (1 : Nat) = 0 + 1 ∧
      ∀ d ∈ pay.datasets, ∀ p ∈ d,
        (∃ s', vlookup p "name" = some (.str s')) ∧
        ∃ ds ∈ dataListOf (.dict [("s1", .list [.dict [("x", .num 1),
            ("y", .num 2), ("name", .str "s1")]])]),
          ∃ e, ds = Val.dict e ∧ ∃ kv ∈ e, ∃ l,
            (kv : String × Val).2 = Val.list l ∧ p ∈ l) ∧
    (truthy (getD [] "square" .none) = true →
      hasKey [("id", Val.str "mqc_hcplot_abcdefghij")] "endOnTick" = true ∧
      (hasKey ([] : Dict) "xmax" = false → hasKey ([] : Dict) "ymax" = false →
        hasKey [("id", Val.str "mqc_hcplot_abcdefghij")] "xmax" = true ∧
        hasKey [("id", Val.str "mqc_hcplot_abcdefghij")] "ymax" = true)) :=
  C10_in_place_mutation false "abcdefghij" ⟨[], 0, []⟩
    (.dict [("s1", .dict [("x", .num 1), ("y", .num 2)])]) []
    ⟨.builtin ⟨[], "mqc_hcplot_abcdefghij", Option.none⟩,
     .dict [("s1", .list [.dict [("x", .num 1), ("y", .num 2), ("name", .str "s1")]])],
     [("id", Val.str "mqc_hcplot_abcdefghij")],
     ⟨["mqc_hcplot_abcdefghij"], 1,
      [("mqc_hcplot_abcdefghij",
        ⟨"scatter", [[.dict [("x", .num 1), ("y", .num 2), ("name", .str "s1")]]],
         [("id", Val.str "mqc_hcplot_abcdefghij")]⟩)]⟩⟩
    (by rfl) (by rfl)

end Scatter
